import Mathlib

/-!
# Petrichor stake-seal engine: verification of `libethashseal/Ethash.cpp`

Shallow embedding of the seal engine (`Ethash::calculateDifficulty`, `Ethash::boundary`,
`Ethash::verifySeal`, `Ethash::verify`, `Ethash::verifyTransaction`, `Ethash::childGasLimit`,
`Ethash::generateSeal`, `Ethash::populateFromParent`) and of the BLS and ECDSA wrappers and
`ecies::kdf` of `libdevcrypto/Common.cpp`.

Conventions of the embedding.

* `u256` values and `h256` hashes are natural numbers (a hash is its big-endian value, which is
  the order `h256` comparison uses); `bigint` is `Int`; `bigint` division truncates toward zero
  (`Int.tdiv`). Storing a `bigint` into a `u256` keeps the low 256 bits (`u256`).
* Byte strings are lists of byte values.
* A function that can throw returns `Except Exception _`; only the kind of the exception is
  kept, not the diagnostic values attached to it with `<<`.
* Libraries and collaborators whose code is outside the sources (Keccak, the BLS12-381 library,
  the header hash, the base class `SealEngineFace`, the balance retriever) are fields of the
  structure `Ethash`: the general theorems hold for all of them, and `sampleEngine` fixes them to
  small stand-ins where a definition has to be evaluated on a concrete header.
-/

namespace Petrichor

/-- Byte strings (`bytes`). -/
abbrev bytes := List Nat

/-- The value `std::numeric_limits<u256>::max()`. -/
def u256Max : Nat := 2 ^ 256 - 1

/-- Conversion `u256(x)` of a `bigint` to the 256-bit unsigned type: the low 256 bits are kept. -/
def u256 (x : Int) : Nat := (x % 2 ^ 256).toNat

/-- Big-endian 32-byte view of a 256-bit value (`h256::asBytes`, `h256(u256)`). -/
def asBytes32 (h : Nat) : bytes := (List.range 32).map (fun i => h / 256 ^ (31 - i) % 256)

/-- Exceptions thrown by the seal engine, by kind. `std_overflow_error` is what the
multiprecision library throws on a division by zero; `BaseClassFailure` stands for whatever else
the base class may throw. -/
inductive Exception where
  | InvalidDifficulty
  | InvalidGasLimit
  | ExtraDataTooBig
  | InvalidBlockNonce
  | GenesisBlockCannotBeCalculated
  | OutOfGasIntrinsic
  | BlockGasLimitReached
  | std_overflow_error
  | BaseClassFailure (code : Nat)
  deriving DecidableEq, Repr

/-- Verification strictness. The enumeration is declared outside the sources; `Ethash::verify`
names three of its values, `other` stands for any further enumerator. -/
inductive Strictness where
  | CheckEverything
  | QuickNonce
  | CheckNothingNew
  | other (tag : Nat)
  deriving DecidableEq, Repr

/-- Modelled from the spec: the type `BlockHeader`, declared outside the sources, with the
seal-relevant fields of the data model (section 3). `number` is a block height, kept as a natural
number; hashes and 256-bit words are naturals, the BLS public key and the two signatures are byte
strings. -/
structure BlockHeader where
  number : Nat
  parentHash : Nat
  timestamp : Nat
  difficulty : Nat
  gasLimit : Nat
  gasUsed : Nat
  extraData : bytes
  stakeModifier : Nat
  publicKey : bytes
  stakeSignature : bytes
  blockSignature : bytes
  deriving DecidableEq, Repr

/-- Modelled from the spec: the chain parameters read through `chainParams()` (`ChainParams`
in section 3), declared outside the sources. -/
structure ChainOperationParams where
  chainID : Int
  minimumDifficulty : Nat
  minGasLimit : Nat
  maxGasLimit : Nat
  gasLimitBoundDivisor : Nat
  maximumExtraDataSize : Nat

/-- The import requirements tested by `Ethash::verifyTransaction`. The bit mask
`ImportRequirements::value` is declared outside the sources; each field is the truth value of
`_ir & ImportRequirements::<name>`. -/
structure ImportRequirements where
  TransactionSignatures : Bool
  TransactionBasic : Bool

/-- The part of a transaction (`TransactionBase`, declared outside the sources) read by
`Ethash::verifyTransaction`: its gas, and its methods `baseGasRequired(schedule)` and
`checkChainId(chainID)`, the latter throwing when the check fails. -/
structure TransactionBase where
  gas : Nat
  baseGasRequired : Nat → Int
  checkChainId : Int → Except Exception Unit

/-- The engine object: its chain parameters, its balance retriever, and the functions it calls
whose code is outside the sources. -/
structure Ethash where
  chainParams : ChainOperationParams
  /-- Member `m_balanceRetriever(address, blockNumber)`. -/
  m_balanceRetriever : Nat → Nat → Nat
  /-- The conversion `(BlockNumber) (...)` of a header number. -/
  toBlockNumber : Nat → Nat
  /-- Keccak-256, `dev::sha3`. -/
  sha3 : bytes → Nat
  /-- Function `publicToAddress<BLS::Public>`. -/
  publicToAddress : bytes → Nat
  /-- Method `BlockHeader::hash(WithoutSeal)`. -/
  hashWithoutSeal : BlockHeader → Nat
  /-- Function `dev::getDefaultDataDirName()`, as bytes. -/
  getDefaultDataDirName : bytes
  /-- Function `BLS12_381::G1::mapToElement`. -/
  mapToElement : bytes → bytes
  /-- Function `BLS12_381::BonehLynnShacham::generatePublicKey`. -/
  generatePublicKey : bytes → bytes
  /-- Function `BLS12_381::BonehLynnShacham::sign(element, secret)`. -/
  BonehLynnShacham_sign : bytes → bytes → bytes
  /-- Function `BLS12_381::BonehLynnShacham::verify(publicKey, element, signature)`. -/
  BonehLynnShacham_verify : bytes → bytes → bytes → Bool
  /-- Base-class method `SealEngineFace::verify`. -/
  SealEngineFace_verify : Strictness → BlockHeader → BlockHeader → bytes → Except Exception Unit
  /-- Base-class method `SealEngineFace::verifyTransaction`. -/
  SealEngineFace_verifyTransaction :
    ImportRequirements → TransactionBase → BlockHeader → Nat → Except Exception Unit
  /-- Base-class method `evmSchedule(blockNumber)`; a schedule is named by a number. -/
  evmSchedule : Nat → Nat
  /-- Base-class method `SealEngineFace::populateFromParent`, as the header it leaves in `_bi`. -/
  SealEngineFace_populateFromParent : BlockHeader → BlockHeader → BlockHeader

instance instDecidableEqExcept {ε α : Type} [DecidableEq ε] [DecidableEq α] :
    DecidableEq (Except ε α)
  | .ok a, .ok b => if h : a = b then isTrue (by rw [h]) else isFalse (by intro h2; cases h2; exact h rfl)
  | .error a, .error b =>
    if h : a = b then isTrue (by rw [h]) else isFalse (by intro h2; cases h2; exact h rfl)
  | .ok _, .error _ => isFalse (by intro h; cases h)
  | .error _, .ok _ => isFalse (by intro h; cases h)

/-! ## `libdevcrypto/Common.cpp`: BLS wrappers -/

/-- Function `hashToElement`: the G1 element signed for `(publicKey, hash)`. -/
def hashToElement (E : Ethash) (publicKey : bytes) (hash : Nat) : bytes :=
  E.mapToElement (asBytes32 (E.sha3 (E.getDefaultDataDirName ++ publicKey ++ asBytes32 hash)))

/-- Function `dev::toPublic<BLS>`. -/
def toPublicBLS (E : Ethash) (secret : bytes) : bytes := E.generatePublicKey secret

/-- Function `dev::sign<BLS>`. -/
def signBLS (E : Ethash) (secret : bytes) (hash : Nat) : bytes :=
  E.BonehLynnShacham_sign (hashToElement E (toPublicBLS E secret) hash) secret

/-- Function `dev::verify<BLS>`. -/
def verifyBLS (E : Ethash) (publicKey signature : bytes) (hash : Nat) : Bool :=
  E.BonehLynnShacham_verify publicKey (hashToElement E publicKey hash) signature

/-! ## `libethashseal/Ethash.cpp` -/

/-- Function `Ethash::computeChildStakeModifier`. -/
def computeChildStakeModifier (E : Ethash) (parentStakeModifier : Nat)
    (minerPubKey minterStakeSig : bytes) : Nat :=
  E.sha3 (asBytes32 parentStakeModifier ++ minerPubKey ++ minterStakeSig)

/-- Function `Ethash::computeStakeMessage`. -/
def computeStakeMessage (E : Ethash) (stakeModifier timestamp : Nat) : Nat :=
  E.sha3 (asBytes32 stakeModifier ++ asBytes32 timestamp)

/-- Function `Ethash::computeStakeSignature`. -/
def computeStakeSignature (E : Ethash) (message : Nat) (sealerSecretKey : bytes) : bytes :=
  signBLS E sealerSecretKey message

/-- Function `Ethash::verifyStakeSignature`. -/
def verifyStakeSignature (E : Ethash) (publicKey signature : bytes) (message : Nat) : Bool :=
  verifyBLS E publicKey signature message

/-- Function `Ethash::computeStakeSignatureHash`. -/
def computeStakeSignatureHash (E : Ethash) (stakeSignature : bytes) : Nat :=
  E.sha3 stakeSignature

/-- Function `Ethash::calculateDifficulty(_bi, parentTimeStamp, parentDifficulty)`, the overload
taking the parent's timestamp and difficulty as `bigint`. -/
def calculateDifficulty (E : Ethash) (_bi : BlockHeader) (parentTimeStamp parentDifficulty : Int) :
    Except Exception Nat :=
  if _bi.number = 0 then
    Except.error Exception.GenesisBlockCannotBeCalculated
  else
    let minimumDifficulty : Int := E.chainParams.minimumDifficulty
    let timestampDiff : Int := (_bi.timestamp : Int) - parentTimeStamp
    let adjFactor : Int := max (1 - timestampDiff.tdiv 9) (-99)
    let target : Int := parentDifficulty + parentDifficulty.tdiv 2048 * adjFactor
    Except.ok (u256 (min (max minimumDifficulty target) (u256Max : Int)))

/-- Function `Ethash::calculateDifficulty(_bi, parent)`, the overload taking the parent header. -/
def calculateDifficultyOfParent (E : Ethash) (_bi parent : BlockHeader) : Except Exception Nat :=
  calculateDifficulty E _bi parent.timestamp parent.difficulty

/-- Function `Ethash::boundary`. -/
def boundary (_bi : BlockHeader) (balance : Nat) : Nat :=
  let d := _bi.difficulty
  if d ≠ 0 then u256 ((((1 <<< 256 : Nat) : Int).tdiv (d : Int)) * (balance : Int)) else 0

/-- Function `Ethash::verifySeal`. -/
def verifySeal (E : Ethash) (_bi m_parent : BlockHeader) : Bool :=
  if _bi.number ≠ m_parent.number + 1 then
    false
  else
    let minterAddress := E.publicToAddress _bi.publicKey
    let minterBalance := E.m_balanceRetriever minterAddress (E.toBlockNumber (_bi.number - 1))
    let stakeSig := _bi.stakeSignature
    let meetsBounds : Bool := decide (computeStakeSignatureHash E stakeSig ≤ boundary _bi minterBalance)
    let modifierCorrect : Bool :=
      decide (_bi.stakeModifier
        = computeChildStakeModifier E m_parent.stakeModifier _bi.publicKey stakeSig)
    let stakeSignatureVerified : Bool :=
      verifyStakeSignature E _bi.publicKey stakeSig
        (computeStakeMessage E m_parent.stakeModifier _bi.timestamp)
    let blockSignatureVerified : Bool :=
      verifyBLS E _bi.publicKey _bi.blockSignature (E.hashWithoutSeal _bi)
    meetsBounds && modifierCorrect && blockSignatureVerified && stakeSignatureVerified

/-- Division of `u256` values; the multiprecision library throws on a zero divisor. -/
def u256div (a b : Nat) : Except Exception Nat :=
  if b = 0 then Except.error Exception.std_overflow_error else Except.ok (a / b)

/-- First block of `Ethash::verify`: the bounds checked when the strictness is not
`CheckNothingNew` (minimum difficulty, absolute gas-limit bounds, extra-data size). -/
def verifyBounds (E : Ethash) (_s : Strictness) (_bi : BlockHeader) : Except Exception Unit := do
  if _s ≠ Strictness.CheckNothingNew then
    if _bi.difficulty < E.chainParams.minimumDifficulty then
      throw Exception.InvalidDifficulty
    if _bi.gasLimit < E.chainParams.minGasLimit then
      throw Exception.InvalidGasLimit
    if _bi.gasLimit > E.chainParams.maxGasLimit then
      throw Exception.InvalidGasLimit
    if _bi.number ≠ 0 ∧ _bi.extraData.length > E.chainParams.maximumExtraDataSize then
      throw Exception.ExtraDataTooBig

/-- Second block of `Ethash::verify` (the block under the commented-out `if (_parent)`): the
difficulty retarget and the gas limit against the parent. The four-way disjunction on the gas
limit is evaluated left to right, so in the condition the quotient by `gasLimitBoundDivisor` is
computed only when the first two disjuncts are false; when the condition holds, the exception is
built with `errinfo_min` and `errinfo_max`, which divide by `gasLimitBoundDivisor` again, so with
a zero divisor the division error escapes instead of `InvalidGasLimit`. -/
def verifyAgainstParent (E : Ethash) (_bi _parent : BlockHeader) : Except Exception Unit := do
  let expected ← calculateDifficultyOfParent E _bi _parent
  let difficulty := _bi.difficulty
  if difficulty ≠ expected then
    throw Exception.InvalidDifficulty
  let gasLimit := _bi.gasLimit
  let parentGasLimit := _parent.gasLimit
  if gasLimit < E.chainParams.minGasLimit ∨ gasLimit > E.chainParams.maxGasLimit then
    let _ ← u256div parentGasLimit E.chainParams.gasLimitBoundDivisor
    throw Exception.InvalidGasLimit
  let q ← u256div parentGasLimit E.chainParams.gasLimitBoundDivisor
  if gasLimit ≤ u256 ((parentGasLimit : Int) - (q : Int)) ∨
      gasLimit ≥ u256 ((parentGasLimit : Int) + (q : Int)) then
    throw Exception.InvalidGasLimit

/-- The checks of `Ethash::verify` that precede the seal check, in source order: the base-class
call, then the two blocks above. -/
def verifyEnvelope (E : Ethash) (_s : Strictness) (_bi _parent : BlockHeader) (_block : bytes) :
    Except Exception Unit := do
  E.SealEngineFace_verify _s _bi _parent _block
  verifyBounds E _s _bi
  verifyAgainstParent E _bi _parent

/-- Function `Ethash::verify`: the checks above, then the seal check. -/
def verify (E : Ethash) (_s : Strictness) (_bi _parent : BlockHeader) (_block : bytes) :
    Except Exception Unit := do
  verifyEnvelope E _s _bi _parent _block
  if (_s = Strictness.CheckEverything ∨ _s = Strictness.QuickNonce) ∧ _bi.parentHash ≠ 0 ∧
      verifySeal E _bi _parent = false then
    throw Exception.InvalidBlockNonce

/-- Addition of `u256` values (wraps at 256 bits). -/
def u256add (a b : Nat) : Nat := u256 ((a : Int) + (b : Int))

/-- Subtraction of `u256` values (wraps at 256 bits). -/
def u256sub (a b : Nat) : Nat := u256 ((a : Int) - (b : Int))

/-- Multiplication of `u256` values (wraps at 256 bits). -/
def u256mul (a b : Nat) : Nat := u256 ((a : Int) * (b : Int))

/-- Function `Ethash::childGasLimit`. The constant `Invalid256`, declared outside the sources,
is a parameter; it is also the default value of `_gasFloorTarget`. -/
def childGasLimit (E : Ethash) (Invalid256 : Nat) (_bi : BlockHeader) (_gasFloorTarget : Nat) :
    Except Exception Nat := do
  let gasFloorTarget : Nat := if _gasFloorTarget = Invalid256 then 3141562 else _gasFloorTarget
  let gasLimit := _bi.gasLimit
  let boundDivisor := E.chainParams.gasLimitBoundDivisor
  if gasLimit < gasFloorTarget then
    let q ← u256div gasLimit boundDivisor
    pure (min gasFloorTarget (u256sub (u256add gasLimit q) 1))
  else
    let q ← u256div gasLimit boundDivisor
    let w ← u256div (u256mul _bi.gasUsed 6 / 5) boundDivisor
    pure (max gasFloorTarget (u256add (u256add (u256sub gasLimit q) 1) w))

/-- A registered key pair (`KeyPair<BLS>`, declared outside the sources), by the values of its
accessors `secret()`, `pub()` and `address()`. -/
structure KeyPair where
  secret : bytes
  pub : bytes
  address : Nat

/-- Sealing thread of `Ethash::generateSeal`, the four setters of the winning step, in source
order: `setStakeModifier`, `setPublicKey`, `setStakeSignature`, then `setBlockSignature` with the
signature of the hash of the header as it stands after the first three. -/
def writeSeal (E : Ethash) (m_sealing parent : BlockHeader) (kp : KeyPair) (r : bytes) :
    BlockHeader :=
  let s1 : BlockHeader :=
    { m_sealing with stakeModifier := computeChildStakeModifier E parent.stakeModifier kp.pub r }
  let s2 : BlockHeader := { s1 with publicKey := kp.pub }
  let s3 : BlockHeader := { s2 with stakeSignature := r }
  { s3 with blockSignature := signBLS E kp.secret (E.hashWithoutSeal s3) }

/-- Sealing thread of `Ethash::generateSeal`, body of the loop over `m_keyPairs` for one key
pair: when the hash of the stake signature meets the boundary, the four seal fields are written
and the sealed header is returned (it is the header the self-check
`assert(verifySeal(m_sealing, parent))` and the callback receive). -/
def trySealWithKey (E : Ethash) (m_sealing parent : BlockHeader) (timestamp : Nat)
    (kp : KeyPair) : Option BlockHeader :=
  let balance := E.m_balanceRetriever kp.address (E.toBlockNumber (m_sealing.number - 1))
  let r := computeStakeSignature E (computeStakeMessage E parent.stakeModifier timestamp) kp.secret
  if computeStakeSignatureHash E r ≤ boundary m_sealing balance then
    some (writeSeal E m_sealing parent kp r)
  else
    none

/-- Sealing thread of `Ethash::generateSeal`, one pass of the `while (m_generating)` loop once
the clock has reached `timestamp`: the timestamp and the difficulty are written to `m_sealing`,
then the key pairs are tried in order. The result is the new `m_sealing` and whether a key met
the boundary (when none did, the thread goes on with `timestamp + 1`). -/
def sealThreadPass (E : Ethash) (m_sealing parent : BlockHeader) (timestamp : Nat)
    (m_keyPairs : List KeyPair) : Except Exception (BlockHeader × Bool) := do
  let s1 : BlockHeader := { m_sealing with timestamp := timestamp }
  let d ← calculateDifficultyOfParent E s1 parent
  let s2 : BlockHeader := { s1 with difficulty := d }
  match m_keyPairs.findSome? (trySealWithKey E s2 parent timestamp) with
  | some s4 => pure (s4, true)
  | none => pure (s2, false)

/-- The members written by the caller-side part of `Ethash::generateSeal`: the flag
`m_generating`, the slot `m_sealing`, the thread object `sealThread` (named by the parent its
closure captured). `started` counts the sealing threads constructed so far; it is an observation
of the model, not a member. -/
structure SealerState where
  m_generating : Bool
  m_sealing : BlockHeader
  sealThread : Option BlockHeader
  started : Nat
  deriving DecidableEq

/-- Function `Ethash::generateSeal`, the part run by the caller: under the test of the flag the
slot is overwritten, the previous thread is joined (no effect on these members), the flag is set
and a new sealing thread is constructed. -/
def generateSeal (st : SealerState) (_bi parent : BlockHeader) : SealerState :=
  if st.m_generating = false then
    { m_generating := true, m_sealing := _bi, sealThread := some parent,
      started := st.started + 1 }
  else
    st

/-! ## `libdevcrypto/Common.cpp`: ECDSA -/

/-- The constant `c_secp256k1n`. -/
def c_secp256k1n : Nat :=
  115792089237316195423570985008687907852837564279074904382605163141518161494337

/-- The structure `ECDSA::SignatureStruct`: `r` and `s` are `h256` values, `v` is a byte. -/
structure SignatureStruct where
  r : Nat
  s : Nat
  v : Nat
  deriving DecidableEq, Repr

/-- Method `ECDSA::SignatureStruct::isValid`. -/
def SignatureStruct.isValid (sig : SignatureStruct) : Bool :=
  let s_max : Nat := 0xfffffffffffffffffffffffffffffffebaaedce6af48a03bbfd25e8cd0364141
  let s_zero : Nat := 0
  decide (sig.v ≤ 1) && decide (sig.r > s_zero) && decide (sig.s > s_zero) &&
    decide (sig.r < s_max) && decide (sig.s < s_max)

/-- Function `dev::sign<ECDSA>`. The parameter `secp256k1_sign` stands for the library calls
`secp256k1_ecdsa_sign_recoverable` and `secp256k1_ecdsa_recoverable_signature_serialize_compact`:
on the hash and the secret it returns `none` when signing fails, else the compact `r`, `s` and
the recovery id `v`. The returned value is the one the final `assert` tests. -/
def signECDSA (secp256k1_sign : Nat → bytes → Option (Nat × Nat × Nat)) (_k : bytes)
    (_hash : Nat) : SignatureStruct :=
  match secp256k1_sign _hash _k with
  | none => { r := 0, s := 0, v := 0 }
  | some (r, s, v) =>
    let ss : SignatureStruct := { r := r, s := s, v := v % 256 }
    if ss.s > c_secp256k1n / 2 then
      { r := ss.r, s := u256 ((c_secp256k1n : Int) - (ss.s : Int)), v := (ss.v ^^^ 1) % 256 }
    else
      ss

/-- Function `Ethash::populateFromParent`: the base-class call, then the gas limit is set to
`childGasLimit(_parent)` with the default floor argument `Invalid256`. The result is the header
`_bi` as populated. -/
def populateFromParent (E : Ethash) (Invalid256 : Nat) (_bi _parent : BlockHeader) :
    Except Exception BlockHeader := do
  let b := E.SealEngineFace_populateFromParent _bi _parent
  let g ← childGasLimit E Invalid256 _parent Invalid256
  pure { b with gasLimit := g }

/-- Sealing thread of `Ethash::generateSeal`, the end of the winning step, after the four
setters have written the sealed header to `m_sealing`: when a callback is registered the header
is RLP-encoded (`streamRLP`, outside the sources) and handed to `m_onSealGenerated`, and only
then is `m_generating` cleared. The callback runs on the sealing thread; its effect on the
members is a function of the state it finds. -/
def sealThreadEmit (streamRLP : BlockHeader → bytes)
    (m_onSealGenerated : Option (bytes → SealerState → SealerState)) (st : SealerState) :
    SealerState :=
  let st1 : SealerState :=
    match m_onSealGenerated with
    | some callback => callback (streamRLP st.m_sealing) st
    | none => st
  { st1 with m_generating := false }

/-- Function `dev::recover`. A public key is the value of its 64 bytes, the empty key `{}` is 0,
and `int v = _sig[64]` is the byte `v` of the signature. The parameters stand for the library:
`parse_compact` for `secp256k1_ecdsa_recoverable_signature_parse_compact` on the compact `r`, `s`
and the recovery id, `ecdsa_recover` for `secp256k1_ecdsa_recover` followed by the serialisation
without its header byte; each returns `none` when the call fails. -/
def recover (parse_compact : Nat → Nat → Nat → Option Nat)
    (ecdsa_recover : Nat → Nat → Option Nat) (_sig : SignatureStruct) (_message : Nat) : Nat :=
  let v := _sig.v
  if v > 3 then
    0
  else
    match parse_compact _sig.r _sig.s v with
    | none => 0
    | some rawSig =>
      match ecdsa_recover rawSig _message with
      | none => 0
      | some rawPubkey => rawPubkey

/-- Function `dev::verify` for ECDSA. -/
def verifyECDSA (parse_compact : Nat → Nat → Nat → Option Nat)
    (ecdsa_recover : Nat → Nat → Option Nat) (_p : Nat) (_s : SignatureStruct) (_hash : Nat) :
    Bool :=
  if _p = 0 then
    false
  else
    decide (_p = recover parse_compact ecdsa_recover _s _hash)

/-! ## `libdevcrypto/Common.cpp`: `ecies::kdf` -/

/-- The counter update `++ctr[3] || ++ctr[2] || ++ctr[1] || ++ctr[0]` on the four counter bytes
`(ctr[0], ctr[1], ctr[2], ctr[3])`: a byte is incremented, and the next one to the left only when
the increment wrapped to zero. -/
def incrementCtr : Nat × Nat × Nat × Nat → Nat × Nat × Nat × Nat
  | (c0, c1, c2, c3) =>
    if (c3 + 1) % 256 ≠ 0 then (c0, c1, c2, (c3 + 1) % 256)
    else if (c2 + 1) % 256 ≠ 0 then (c0, c1, (c2 + 1) % 256, 0)
    else if (c1 + 1) % 256 ≠ 0 then (c0, (c1 + 1) % 256, 0, 0)
    else ((c0 + 1) % 256, 0, 0, 0)

/-- The `for` loop of `ecies::kdf`, with `n` iterations left: each iteration appends to `k` the
SHA-256 digest of the counter bytes followed by `_z` and `_s1`, then updates the counter.
`sha256` stands for the library hash. -/
def kdfLoop (sha256 : bytes → bytes) (_z _s1 : bytes) :
    Nat → Nat × Nat × Nat × Nat → bytes → bytes
  | 0, _, k => k
  | n + 1, ctr, k =>
    kdfLoop sha256 _z _s1 n (incrementCtr ctr)
      (k ++ sha256 ([ctr.1, ctr.2.1, ctr.2.2.1, ctr.2.2.2] ++ _z ++ _s1))

/-- The call `k.resize(n)`: truncation, or padding with zero bytes. -/
def resize (k : bytes) (n : Nat) : bytes := (k ++ List.replicate (n - k.length) 0).take n

/-- Function `ecies::kdf`. `kdByteLen` is an `unsigned` (32 bits), and so is `reps`; the loop
`for (i = 0; i <= reps; i++)` runs `reps + 1` times from the counter `{0, 0, 0, 1}`. -/
def kdf (sha256 : bytes → bytes) (_z _s1 : bytes) (kdByteLen : Nat) : bytes :=
  let reps := ((kdByteLen + 7) % 2 ^ 32 * 8) % 2 ^ 32 / 512
  let k := kdfLoop sha256 _z _s1 (reps + 1) (0, 0, 0, 1) []
  resize k kdByteLen

/-- The counter-mode stream `SHA256(be32(i) || z || s1) || SHA256(be32(i+1) || z || s1) || ...`
of `blocks` digests starting at the counter value `i` (the stream of the derivation the function
implements, stated on its own). -/
def counterModeStream (sha256 : bytes → bytes) (z s1 : bytes) : Nat → Nat → bytes
  | 0, _ => []
  | blocks + 1, i =>
    sha256 ([i / 2 ^ 24 % 256, i / 2 ^ 16 % 256, i / 2 ^ 8 % 256, i % 256] ++ z ++ s1)
      ++ counterModeStream sha256 z s1 blocks (i + 1)

/-- The outcome of a list of checks performed in order, each given by its failure condition and
the error it raises (section 7 of the spec: verification returns success or raises exactly one
error, on the first failure encountered): the error of the first check that fails, success when
none fails. -/
def firstFailure : List (Bool × Exception) → Except Exception Unit
  | [] => Except.ok ()
  | (failed, e) :: rest => if failed = true then Except.error e else firstFailure rest

/-! ## Concrete instances used to evaluate the definitions -/

/-- Chain parameters of the sample engine. -/
def sampleParams : ChainOperationParams :=
  { chainID := 1, minimumDifficulty := 131072, minGasLimit := 5000,
    maxGasLimit := 9223372036854775807, gasLimitBoundDivisor := 1024, maximumExtraDataSize := 32 }

/-- A sample engine: every account holds 1_000_000, the base-class check accepts everything, and
the external hash and signature functions are small stand-ins (a signature is the signed element
followed by the signer's public key, and verifies exactly when it has that form). -/
def sampleEngine : Ethash :=
  { chainParams := sampleParams
    m_balanceRetriever := fun _ _ => 1000000
    toBlockNumber := fun n => n
    sha3 := fun bs => bs.foldl (fun acc b => (31 * acc + b + 1) % 2 ^ 256) 7
    publicToAddress := fun pk => pk.foldl (fun acc b => (256 * acc + b) % 2 ^ 160) 0
    hashWithoutSeal := fun h => (h.number + 3 * h.timestamp + 5 * h.difficulty + 7 * h.gasLimit
      + 11 * h.parentHash + 13 * h.gasUsed + 17 * h.extraData.length) % 2 ^ 256
    getDefaultDataDirName := [112, 101, 116]
    mapToElement := fun bs => bs.drop 28
    generatePublicKey := fun sk => sk.map (fun b => (b + 1) % 256)
    BonehLynnShacham_sign := fun e sk => e ++ sk.map (fun b => (b + 1) % 256)
    BonehLynnShacham_verify := fun pk e sig => decide (sig = e ++ pk)
    SealEngineFace_verify := fun _ _ _ _ => Except.ok ()
    SealEngineFace_verifyTransaction := fun _ _ _ _ => Except.ok ()
    evmSchedule := fun _ => 0
    SealEngineFace_populateFromParent := fun bi parent =>
      { bi with number := parent.number + 1, gasUsed := 0 } }

/-- A header with the given number, timestamp, difficulty and gas limit, and empty seal. -/
def sampleHeader (number timestamp difficulty gasLimit : Nat) : BlockHeader :=
  { number := number, parentHash := 0, timestamp := timestamp, difficulty := difficulty,
    gasLimit := gasLimit, gasUsed := 0, extraData := [], stakeModifier := 0, publicKey := [],
    stakeSignature := [], blockSignature := [] }

/-- A parent header at height 4: timestamp 100, difficulty 1_000_000, gas limit 8_000_000. -/
def sampleParent : BlockHeader :=
  { number := 4, parentHash := 77, timestamp := 100, difficulty := 1000000,
    gasLimit := 8000000, gasUsed := 0, extraData := [], stakeModifier := 0, publicKey := [],
    stakeSignature := [], blockSignature := [] }

/-- A child of `sampleParent` sealed on the sample engine with the secret `[1, 2, 3]`: the seal
fields are the ones the sealing step of `generateSeal` writes for this key. Its `parentHash`
is zero. -/
def sealedHeader : BlockHeader :=
  { number := 5, parentHash := 0, timestamp := 101, difficulty := 1000488,
    gasLimit := 8000000, gasUsed := 0, extraData := [],
    stakeModifier := 3050368739673052900049182603132752104438583078844537986035831687,
    publicKey := [2, 3, 4],
    stakeSignature := [137, 7, 126, 160, 2, 3, 4],
    blockSignature := [243, 29, 3, 83, 2, 3, 4] }

/-- A header whose extra data is longer than `maximumExtraDataSize`, otherwise well-formed: the
child of `sampleParent` at height 5 with the retargeted difficulty and 33 bytes of extra data. -/
def longExtraDataHeader : BlockHeader :=
  { number := 5, parentHash := 424242, timestamp := 101, difficulty := 1000488,
    gasLimit := 8000000, gasUsed := 0, extraData := List.replicate 33 0, stakeModifier := 0,
    publicKey := [], stakeSignature := [], blockSignature := [] }

/-- A child of `sampleParent` with an empty seal and the given `parentHash`: it passes every
check that precedes the seal check, and the seal predicate rejects it. -/
def unsealedHeader (parentHash : Nat) : BlockHeader :=
  { number := 5, parentHash := parentHash, timestamp := 101, difficulty := 1000488,
    gasLimit := 8000000, gasUsed := 0, extraData := [], stakeModifier := 0, publicKey := [],
    stakeSignature := [], blockSignature := [] }

/-- The header `sealedHeader` with the non-zero `parentHash` 424_242, sealed with the same
secret (its block signature is the one for this header). -/
def sealedChild : BlockHeader :=
  { number := 5, parentHash := 424242, timestamp := 101, difficulty := 1000488,
    gasLimit := 8000000, gasUsed := 0, extraData := [],
    stakeModifier := 3050368739673052900049182603132752104438583078844537986035831687,
    publicKey := [2, 3, 4],
    stakeSignature := [137, 7, 126, 160, 2, 3, 4],
    blockSignature := [243, 29, 248, 75, 2, 3, 4] }

/-- The key pair of the secret `[1, 2, 3]` on the sample engine. -/
def sampleKeyPair : KeyPair :=
  { secret := [1, 2, 3], pub := [2, 3, 4], address := 131844 }

/-- A library signer that returns the fixed raw signature `(r, s, v)` for every input. -/
def constSigner (r s v : Nat) : Nat → bytes → Option (Nat × Nat × Nat) :=
  fun _ _ => some (r, s, v)

/-- A stand-in for SHA-256 with 32-byte digests that have no zero byte: every byte of the digest
is one more than the sum of the input bytes modulo 255. -/
def sampleSha256 : bytes → bytes :=
  fun bs => List.replicate 32 (bs.foldl (fun acc b => (acc + b) % 255) 0 + 1)

/-- A stand-in for the library recovery: every signature parses, and the recovered key is
`r + s + message + 1`. -/
def sampleParseCompact : Nat → Nat → Nat → Option Nat := fun r s _ => some (r + s)

/-- See `sampleParseCompact`. -/
def sampleEcdsaRecover : Nat → Nat → Option Nat := fun raw message => some (raw + message + 1)

/-- The sample engine with a base-class check that rejects a header whose number is not the
parent's number plus one (a stand-in for the header checks of the base class, which are outside
the sources). -/
def continuityCheckingEngine : Ethash :=
  { sampleEngine with
    SealEngineFace_verify := fun _ bi parent _ =>
      if bi.number ≠ parent.number + 1 then Except.error (Exception.BaseClassFailure 1)
      else Except.ok () }

/-! ## Arithmetic of the 256-bit conversion -/

set_option maxRecDepth 10000

theorem u256_cast_of_range (x : Int) (h0 : 0 ≤ x) (h1 : x < 2 ^ 256) : ((u256 x : Nat) : Int) = x := by
  unfold u256
  rw [Int.emod_eq_of_lt h0 h1]
  exact Int.toNat_of_nonneg h0

theorem u256_of_nat (n : Nat) : u256 (n : Int) = n % 2 ^ 256 := by
  unfold u256
  have h : ((n : Int) % 2 ^ 256) = ((n % 2 ^ 256 : Nat) : Int) := by push_cast; rfl
  rw [h, Int.toNat_natCast]

theorem u256_lt (x : Int) : u256 x < 2 ^ 256 := by
  unfold u256
  have h0 : 0 ≤ x % 2 ^ 256 := Int.emod_nonneg _ (by positivity)
  have h1 : x % 2 ^ 256 < 2 ^ 256 := Int.emod_lt_of_pos _ (by positivity)
  have h2 : (((x % 2 ^ 256).toNat : Nat) : Int) < ((2 ^ 256 : Nat) : Int) := by
    rw [Int.toNat_of_nonneg h0]
    push_cast
    exact h1
  exact_mod_cast h2

/-! ## Difficulty retarget -/

/-- The value returned by `calculateDifficulty` on a non-genesis header, as an integer. -/
theorem calculateDifficulty_ok (E : Ethash) (H : BlockHeader) (pt pd : Int) (hn : H.number ≠ 0) :
    calculateDifficulty E H pt pd
      = Except.ok (u256 (min (max (E.chainParams.minimumDifficulty : Int)
          (pd + pd.tdiv 2048 * max (1 - ((H.timestamp : Int) - pt).tdiv 9) (-99)))
          (u256Max : Int))) := by
  unfold calculateDifficulty
  rw [if_neg hn]

theorem u256Max_cast : ((u256Max : Nat) : Int) = 2 ^ 256 - 1 := by
  unfold u256Max
  have h : 1 ≤ 2 ^ 256 := Nat.one_le_two_pow
  rw [Nat.cast_sub h]
  push_cast

/-- C1: on a header with number != 0, `calculateDifficulty` returns
`clamp(pd + (pd / 2048) * adj, m, 2^256 - 1)` with `adj = max(1 - (t - pt) / 9, -99)`, the
subtraction over the integers and the divisions truncating toward zero; with `pd = 1_000_000`,
`pt = 100`, `t = 101` and `m <= 1_000_488` this is `adj = 1` and difficulty `1_000_488`. -/
theorem calculateDifficulty_eq_clamp (E : Ethash) (H : BlockHeader) (pt pd : Int)
    (hn : H.number ≠ 0) :
    (∃ r : Nat, calculateDifficulty E H pt pd = Except.ok r ∧
      (r : Int) = min (max (pd + pd.tdiv 2048 * max (1 - ((H.timestamp : Int) - pt).tdiv 9) (-99))
        (E.chainParams.minimumDifficulty : Int)) (2 ^ 256 - 1)) ∧
    (H.timestamp = 101 → E.chainParams.minimumDifficulty ≤ 1000488 →
      max (1 - ((H.timestamp : Int) - 100).tdiv 9) (-99) = 1 ∧
      calculateDifficulty E H 100 1000000 = Except.ok 1000488) := by
  refine ⟨⟨_, calculateDifficulty_ok E H pt pd hn, ?_⟩, ?_⟩
  · rw [u256Max_cast, max_comm]
    apply u256_cast_of_range
    · apply le_min
      · exact le_trans (Int.ofNat_nonneg _) (le_max_right _ _)
      · norm_num
    · exact lt_of_le_of_lt (min_le_right _ _) (by norm_num)
  · intro ht hm
    rw [calculateDifficulty_ok E H 100 1000000 hn, ht, u256Max_cast]
    have hm2 : (E.chainParams.minimumDifficulty : Int) ≤ 1000488 := by exact_mod_cast hm
    have e1 : ((101 : Nat) : Int) - 100 = 1 := by norm_num
    have e2 : (1 : Int).tdiv 9 = 0 := by decide
    have e3 : (1000000 : Int).tdiv 2048 = 488 := by decide
    rw [e1, e2, e3]
    have e4 : max ((1 : Int) - 0) (-99) = 1 := by decide
    have e5 : (1000000 : Int) + 488 * 1 = 1000488 := by decide
    rw [e4, e5, max_eq_right hm2]
    refine ⟨rfl, ?_⟩
    have e6 : min (1000488 : Int) (2 ^ 256 - 1) = ((1000488 : Nat) : Int) := by
      rw [min_eq_left (by norm_num)]
      rfl
    rw [e6, u256_of_nat]
    rfl

/-- C1, at a concrete input: parent difficulty 1_000_000, parent timestamp 100, candidate
timestamp 101 on the sample engine. -/
theorem calculateDifficulty_eq_clamp_witness :
    (sampleHeader 5 101 0 0).number ≠ 0 ∧
      calculateDifficulty sampleEngine (sampleHeader 5 101 0 0) 100 1000000 = Except.ok 1000488 :=
  ⟨by decide,
    ((calculateDifficulty_eq_clamp sampleEngine (sampleHeader 5 101 0 0) 100 1000000
      (by decide)).2 rfl (by decide)).2⟩

/-- C2, as stated, fails: with parent difficulty 1_000_000, parent timestamp 100, candidate
timestamp 200 and minimumDifficulty 131_072, `calculateDifficulty` returns 995_120, not
995_118. -/
theorem calculateDifficulty_slow_block_not_995118 :
    (sampleHeader 5 200 0 0).number ≠ 0 ∧ sampleEngine.chainParams.minimumDifficulty ≤ 995118 ∧
      calculateDifficulty sampleEngine (sampleHeader 5 200 0 0) 100 1000000 = Except.ok 995120 ∧
      calculateDifficulty sampleEngine (sampleHeader 5 200 0 0) 100 1000000 ≠ Except.ok 995118 := by
  decide

/-- C2, amended: with parent difficulty 1_000_000, parent timestamp 100 and candidate timestamp
200 (number != 0, minimumDifficulty <= 995_118), `calculateDifficulty` computes `adj = -10` and
returns 995_120 (= 1_000_000 - 488 * 10). -/
theorem calculateDifficulty_slow_block (E : Ethash) (H : BlockHeader) (hn : H.number ≠ 0)
    (ht : H.timestamp = 200) (hm : E.chainParams.minimumDifficulty ≤ 995118) :
    max (1 - ((H.timestamp : Int) - 100).tdiv 9) (-99) = -10 ∧
      calculateDifficulty E H 100 1000000 = Except.ok 995120 := by
  rw [calculateDifficulty_ok E H 100 1000000 hn, ht, u256Max_cast]
  have hm2 : (E.chainParams.minimumDifficulty : Int) ≤ 995120 := by
    have h : E.chainParams.minimumDifficulty ≤ 995120 := le_trans hm (by decide)
    exact_mod_cast h
  have e1 : ((200 : Nat) : Int) - 100 = 100 := by norm_num
  have e2 : (100 : Int).tdiv 9 = 11 := by decide
  have e3 : (1000000 : Int).tdiv 2048 = 488 := by decide
  have e4 : max ((1 : Int) - 11) (-99) = -10 := by decide
  have e5 : (1000000 : Int) + 488 * -10 = 995120 := by decide
  rw [e1, e2, e3, e4, e5, max_eq_right hm2]
  refine ⟨rfl, ?_⟩
  have e6 : min (995120 : Int) (2 ^ 256 - 1) = ((995120 : Nat) : Int) := by
    rw [min_eq_left (by norm_num)]
    rfl
  rw [e6, u256_of_nat]
  rfl

/-- C2, amended, at the sample engine (minimumDifficulty 131_072). -/
theorem calculateDifficulty_slow_block_witness :
    calculateDifficulty sampleEngine (sampleHeader 5 200 0 0) 100 1000000 = Except.ok 995120 :=
  (calculateDifficulty_slow_block sampleEngine (sampleHeader 5 200 0 0) (by decide) rfl
    (by decide)).2

/-! ## The seal predicate -/

/-- C3: `verifySeal(H, P)` is true exactly when `H.number = P.number + 1`, the Keccak hash of the
stake signature is at most `boundary(H, bal(toAddress(publicKey(H)), H.number - 1))` (the height
passed through the `BlockNumber` conversion of the code), the stake modifier of `H` is
`keccak(stakeModifier(P) || publicKey(H) || stakeSignature(H))`, the stake signature verifies
against `keccak(stakeModifier(P) || u256_be(H.timestamp))` and the block signature verifies
against `hashWithoutSeal(H)`; so for an accepted header the recomputed stake modifier equals
`H.stakeModifier`. -/
theorem verifySeal_iff (E : Ethash) (H P : BlockHeader) :
    (verifySeal E H P = true ↔
      H.number = P.number + 1 ∧
      E.sha3 H.stakeSignature ≤ boundary H
        (E.m_balanceRetriever (E.publicToAddress H.publicKey) (E.toBlockNumber (H.number - 1))) ∧
      H.stakeModifier = E.sha3 (asBytes32 P.stakeModifier ++ H.publicKey ++ H.stakeSignature) ∧
      verifyBLS E H.publicKey H.stakeSignature
        (E.sha3 (asBytes32 P.stakeModifier ++ asBytes32 H.timestamp)) = true ∧
      verifyBLS E H.publicKey H.blockSignature (E.hashWithoutSeal H) = true) ∧
    (verifySeal E H P = true →
      computeChildStakeModifier E P.stakeModifier H.publicKey H.stakeSignature
        = H.stakeModifier) := by
  have key : verifySeal E H P = true ↔
      H.number = P.number + 1 ∧
      E.sha3 H.stakeSignature ≤ boundary H
        (E.m_balanceRetriever (E.publicToAddress H.publicKey) (E.toBlockNumber (H.number - 1))) ∧
      H.stakeModifier = E.sha3 (asBytes32 P.stakeModifier ++ H.publicKey ++ H.stakeSignature) ∧
      verifyBLS E H.publicKey H.stakeSignature
        (E.sha3 (asBytes32 P.stakeModifier ++ asBytes32 H.timestamp)) = true ∧
      verifyBLS E H.publicKey H.blockSignature (E.hashWithoutSeal H) = true := by
    unfold verifySeal
    by_cases hn : H.number = P.number + 1
    · simp only [hn, ne_eq, not_true_eq_false, if_false, Bool.and_eq_true, decide_eq_true_eq,
        computeStakeSignatureHash, computeChildStakeModifier, verifyStakeSignature,
        computeStakeMessage, true_and]
      tauto
    · simp [hn]
  refine ⟨key, fun h => ?_⟩
  unfold computeChildStakeModifier
  exact (key.mp h).2.2.1.symm

/-- C3, at a concrete input: the sealed sample header is accepted against its parent, and its
stake modifier is the recomputed one. -/
theorem verifySeal_iff_witness :
    verifySeal sampleEngine sealedHeader sampleParent = true ∧
      computeChildStakeModifier sampleEngine sampleParent.stakeModifier sealedHeader.publicKey
        sealedHeader.stakeSignature = sealedHeader.stakeModifier :=
  ⟨by decide, (verifySeal_iff sampleEngine sealedHeader sampleParent).2 (by decide)⟩

/-! ## The boundary -/

/-- The boundary in natural-number arithmetic: the low 256 bits of `(2^256 / d) * balance`. -/
theorem boundary_eq_mod (H : BlockHeader) (bal : Nat) (hd : H.difficulty ≠ 0) :
    boundary H bal = (2 ^ 256 / H.difficulty * bal) % 2 ^ 256 := by
  unfold boundary
  simp only [hd, ne_eq, not_false_eq_true, if_true]
  have e1 : (((1 <<< 256 : Nat) : Int).tdiv (H.difficulty : Int)) * (bal : Int)
      = ((2 ^ 256 / H.difficulty * bal : Nat) : Int) := by
    rw [Nat.one_shiftLeft]
    push_cast
    rfl
  rw [e1, u256_of_nat]

/-- Without overflow the boundary is the product `(2^256 / d) * balance` itself. -/
theorem boundary_eq_of_lt (H : BlockHeader) (bal : Nat) (hd : H.difficulty ≠ 0)
    (h : 2 ^ 256 / H.difficulty * bal < 2 ^ 256) :
    boundary H bal = 2 ^ 256 / H.difficulty * bal := by
  rw [boundary_eq_mod H bal hd, Nat.mod_eq_of_lt h]

/-- Without overflow at the larger balance the boundary is monotone in the balance. -/
theorem boundary_mono_of_lt (H : BlockHeader) (b1 b2 : Nat) (hd : H.difficulty ≠ 0)
    (hb : b1 ≤ b2) (h : 2 ^ 256 / H.difficulty * b2 < 2 ^ 256) :
    boundary H b1 ≤ boundary H b2 := by
  have h1 : 2 ^ 256 / H.difficulty * b1 ≤ 2 ^ 256 / H.difficulty * b2 :=
    Nat.mul_le_mul_left _ hb
  rw [boundary_eq_of_lt H b1 hd (lt_of_le_of_lt h1 h), boundary_eq_of_lt H b2 hd h]
  exact h1

/-- C4, at the failing input: with difficulty 1_048_576 and balance 2^240 the saturated value
`min(floor(2^256 / d) * bal, 2^256 - 1)` is `2^256 - 1`, but `boundary` returns 0, the low 256
bits of the product 2^476. -/
theorem boundary_wraps_at_large_balance :
    (sampleHeader 1 1000010 1048576 8000000).difficulty > 0 ∧
      min (2 ^ 256 / 1048576 * 2 ^ 240) (2 ^ 256 - 1) = 2 ^ 256 - 1 ∧
      boundary (sampleHeader 1 1000010 1048576 8000000) (2 ^ 240) = 0 := by
  decide

/-- C5, at the failing input: with difficulty 1_048_576 the balances 524_288 <= 1_048_576 give
the boundaries 2^255 and 0, so the larger balance has the smaller boundary. -/
theorem boundary_not_monotone :
    (sampleHeader 1 1000010 1048576 8000000).difficulty > 0 ∧ 524288 ≤ 1048576 ∧
      boundary (sampleHeader 1 1000010 1048576 8000000) 524288 = 2 ^ 255 ∧
      boundary (sampleHeader 1 1000010 1048576 8000000) 1048576 = 0 ∧
      ¬ (boundary (sampleHeader 1 1000010 1048576 8000000) 524288
          ≤ boundary (sampleHeader 1 1000010 1048576 8000000) 1048576) := by
  decide

/-! ## The checks of `verify` -/

theorem verifyBounds_eq (E : Ethash) (s : Strictness) (H : BlockHeader) :
    verifyBounds E s H =
      if s ≠ Strictness.CheckNothingNew then
        if H.difficulty < E.chainParams.minimumDifficulty then
          Except.error Exception.InvalidDifficulty
        else if H.gasLimit < E.chainParams.minGasLimit then
          Except.error Exception.InvalidGasLimit
        else if H.gasLimit > E.chainParams.maxGasLimit then
          Except.error Exception.InvalidGasLimit
        else if H.number ≠ 0 ∧ H.extraData.length > E.chainParams.maximumExtraDataSize then
          Except.error Exception.ExtraDataTooBig
        else Except.ok ()
      else Except.ok () := by
  unfold verifyBounds
  simp only [bind, Except.bind, pure, Except.pure, throw, throwThe, MonadExceptOf.throw]

theorem verifyBounds_ok_iff (E : Ethash) (s : Strictness) (H : BlockHeader) :
    verifyBounds E s H = Except.ok () ↔
      (s ≠ Strictness.CheckNothingNew →
        E.chainParams.minimumDifficulty ≤ H.difficulty ∧
        E.chainParams.minGasLimit ≤ H.gasLimit ∧ H.gasLimit ≤ E.chainParams.maxGasLimit ∧
        (H.number = 0 ∨ H.extraData.length ≤ E.chainParams.maximumExtraDataSize)) := by
  rw [verifyBounds_eq]
  by_cases hs : s = Strictness.CheckNothingNew
  · simp [hs]
  · simp only [ne_eq, hs, not_false_eq_true, if_true, true_implies]
    split_ifs with h1 h2 h3 h4
    · simp; omega
    · simp; omega
    · simp; omega
    · simp; omega
    · simp only [true_iff]
      refine ⟨by omega, by omega, by omega, ?_⟩
      by_cases h0 : H.number = 0
      · exact Or.inl h0
      · right
        by_contra hc
        exact h4 ⟨h0, by omega⟩

theorem verifyAgainstParent_eq (E : Ethash) (H P : BlockHeader) (v : Nat)
    (hv : calculateDifficultyOfParent E H P = Except.ok v)
    (hD : E.chainParams.gasLimitBoundDivisor ≠ 0) :
    verifyAgainstParent E H P =
      if H.difficulty ≠ v then Except.error Exception.InvalidDifficulty
      else if H.gasLimit < E.chainParams.minGasLimit ∨ H.gasLimit > E.chainParams.maxGasLimit then
        Except.error Exception.InvalidGasLimit
      else if H.gasLimit ≤ u256 ((P.gasLimit : Int)
            - ((P.gasLimit / E.chainParams.gasLimitBoundDivisor : Nat) : Int)) ∨
          H.gasLimit ≥ u256 ((P.gasLimit : Int)
            + ((P.gasLimit / E.chainParams.gasLimitBoundDivisor : Nat) : Int)) then
        Except.error Exception.InvalidGasLimit
      else Except.ok () := by
  unfold verifyAgainstParent u256div
  rw [hv]
  simp only [bind, Except.bind, pure, Except.pure, throw, throwThe, MonadExceptOf.throw, hD,
    if_false]

theorem verifyAgainstParent_genesis (E : Ethash) (H P : BlockHeader) (h0 : H.number = 0) :
    verifyAgainstParent E H P = Except.error Exception.GenesisBlockCannotBeCalculated := by
  unfold verifyAgainstParent calculateDifficultyOfParent calculateDifficulty
  simp only [h0, if_true, bind, Except.bind]

theorem verifyEnvelope_eq (E : Ethash) (s : Strictness) (H P : BlockHeader) (block : bytes)
    (hb : E.SealEngineFace_verify s H P block = Except.ok ()) :
    verifyEnvelope E s H P block =
      match verifyBounds E s H with
      | Except.error e => Except.error e
      | Except.ok _ => verifyAgainstParent E H P := by
  unfold verifyEnvelope
  simp only [bind, Except.bind, hb]
  cases verifyBounds E s H <;> rfl

theorem verifyEnvelope_ok_iff (E : Ethash) (s : Strictness) (H P : BlockHeader) (block : bytes) :
    verifyEnvelope E s H P block = Except.ok () ↔
      E.SealEngineFace_verify s H P block = Except.ok () ∧ verifyBounds E s H = Except.ok () ∧
        verifyAgainstParent E H P = Except.ok () := by
  unfold verifyEnvelope
  simp only [bind, Except.bind]
  cases hb : E.SealEngineFace_verify s H P block with
  | error e => simp
  | ok u =>
    cases hc : verifyBounds E s H with
    | error e => simp
    | ok u2 => simp

theorem verify_eq_of_envelope_ok (E : Ethash) (s : Strictness) (H P : BlockHeader)
    (block : bytes) (h : verifyEnvelope E s H P block = Except.ok ()) :
    verify E s H P block =
      if (s = Strictness.CheckEverything ∨ s = Strictness.QuickNonce) ∧ H.parentHash ≠ 0 ∧
          verifySeal E H P = false then
        Except.error Exception.InvalidBlockNonce
      else Except.ok () := by
  unfold verify
  simp only [bind, Except.bind, h, pure, Except.pure, throw, throwThe, MonadExceptOf.throw]

theorem verify_eq_of_envelope_error (E : Ethash) (s : Strictness) (H P : BlockHeader)
    (block : bytes) (e : Exception) (h : verifyEnvelope E s H P block = Except.error e) :
    verify E s H P block = Except.error e := by
  unfold verify
  simp only [bind, Except.bind, h]

theorem verify_ok_imp_envelope_ok (E : Ethash) (s : Strictness) (H P : BlockHeader)
    (block : bytes) (h : verify E s H P block = Except.ok ()) :
    verifyEnvelope E s H P block = Except.ok () := by
  cases he : verifyEnvelope E s H P block with
  | error e =>
    rw [verify_eq_of_envelope_error E s H P block e he] at h
    cases h
  | ok u => rfl

theorem u256_clamp_cast (m : Nat) (t : Int) :
    ((u256 (min (max (m : Int) t) (u256Max : Int)) : Nat) : Int)
      = min (max (m : Int) t) (2 ^ 256 - 1) := by
  rw [u256Max_cast]
  apply u256_cast_of_range
  · apply le_min
    · exact le_trans (Int.ofNat_nonneg _) (le_max_left _ _)
    · norm_num
  · exact lt_of_le_of_lt (min_le_right _ _) (by norm_num)

/-- On a non-genesis header the retargeted difficulty is at least the chain minimum. -/
theorem calculateDifficultyOfParent_ge (E : Ethash) (H P : BlockHeader) (hn : H.number ≠ 0)
    (hm : E.chainParams.minimumDifficulty < 2 ^ 256) :
    ∃ v : Nat, calculateDifficultyOfParent E H P = Except.ok v ∧
      E.chainParams.minimumDifficulty ≤ v := by
  unfold calculateDifficultyOfParent
  refine ⟨_, calculateDifficulty_ok E H _ _ hn, ?_⟩
  have h1 := u256_clamp_cast E.chainParams.minimumDifficulty
    ((P.difficulty : Int) + (P.difficulty : Int).tdiv 2048 *
      max (1 - ((H.timestamp : Int) - (P.timestamp : Int)).tdiv 9) (-99))
  have h2 : (E.chainParams.minimumDifficulty : Int) ≤ 2 ^ 256 - 1 := by
    have h3 : ((E.chainParams.minimumDifficulty : Nat) : Int) < ((2 ^ 256 : Nat) : Int) := by
      exact_mod_cast hm
    push_cast at h3
    linarith
  have h4 : (E.chainParams.minimumDifficulty : Int) ≤
      min (max (E.chainParams.minimumDifficulty : Int)
        ((P.difficulty : Int) + (P.difficulty : Int).tdiv 2048 *
          max (1 - ((H.timestamp : Int) - (P.timestamp : Int)).tdiv 9) (-99))) (2 ^ 256 - 1) :=
    le_min (le_max_left _ _) h2
  rw [← h1] at h4
  exact_mod_cast h4

/-! ## The gas-limit envelope -/

/-- With the difficulty and extra-data checks passing, the checks preceding the seal check
reduce to the gas-limit test. -/
theorem verifyEnvelope_eq_gas_test (E : Ethash) (s : Strictness) (H P : BlockHeader)
    (block : bytes) (hb : E.SealEngineFace_verify s H P block = Except.ok ())
    (hmin : s ≠ Strictness.CheckNothingNew → E.chainParams.minimumDifficulty ≤ H.difficulty)
    (hexp : calculateDifficultyOfParent E H P = Except.ok H.difficulty)
    (hx : s ≠ Strictness.CheckNothingNew →
      H.extraData.length ≤ E.chainParams.maximumExtraDataSize)
    (hD : 1 ≤ E.chainParams.gasLimitBoundDivisor)
    (hov : P.gasLimit + P.gasLimit / E.chainParams.gasLimitBoundDivisor < 2 ^ 256) :
    verifyEnvelope E s H P block =
      if H.gasLimit < E.chainParams.minGasLimit ∨ H.gasLimit > E.chainParams.maxGasLimit ∨
          H.gasLimit ≤ P.gasLimit - P.gasLimit / E.chainParams.gasLimitBoundDivisor ∨
          P.gasLimit + P.gasLimit / E.chainParams.gasLimitBoundDivisor ≤ H.gasLimit then
        Except.error Exception.InvalidGasLimit
      else Except.ok () := by
  have hq : P.gasLimit / E.chainParams.gasLimitBoundDivisor ≤ P.gasLimit := Nat.div_le_self _ _
  have hsub : u256 ((P.gasLimit : Int)
      - ((P.gasLimit / E.chainParams.gasLimitBoundDivisor : Nat) : Int))
      = P.gasLimit - P.gasLimit / E.chainParams.gasLimitBoundDivisor := by
    rw [← Nat.cast_sub hq, u256_of_nat]
    have hlt : P.gasLimit < 2 ^ 256 := lt_of_le_of_lt (Nat.le_add_right _ _) hov
    exact Nat.mod_eq_of_lt (lt_of_le_of_lt (Nat.sub_le _ _) hlt)
  have hadd : u256 ((P.gasLimit : Int)
      + ((P.gasLimit / E.chainParams.gasLimitBoundDivisor : Nat) : Int))
      = P.gasLimit + P.gasLimit / E.chainParams.gasLimitBoundDivisor := by
    rw [← Nat.cast_add, u256_of_nat]
    exact Nat.mod_eq_of_lt hov
  rw [verifyEnvelope_eq E s H P block hb, verifyBounds_eq,
    verifyAgainstParent_eq E H P H.difficulty hexp (by omega), hsub, hadd]
  by_cases hs : s = Strictness.CheckNothingNew
  · simp only [hs, ne_eq, not_true_eq_false, if_false]
    split_ifs <;> first | rfl | omega
  · have h1 := hmin hs
    have h2 := hx hs
    simp only [hs, ne_eq, not_false_eq_true, if_true]
    split_ifs <;> first | rfl | omega | exact absurd trivial ‹¬True›

/-- C6, as stated, fails: at strictness `CheckEverything`, a header with number 5 whose
difficulty checks pass, with gas limit 8_007_813 (outside the interval for parent gas limit
8_000_000 and divisor 1024) and 33 bytes of extra data, raises `ExtraDataTooBig`, not
`InvalidGasLimit`. -/
theorem verify_long_extraData_before_gas_envelope :
    ({ longExtraDataHeader with gasLimit := 8007813 } : BlockHeader).number ≠ 0 ∧
      sampleEngine.chainParams.minimumDifficulty
        ≤ ({ longExtraDataHeader with gasLimit := 8007813 } : BlockHeader).difficulty ∧
      calculateDifficultyOfParent sampleEngine { longExtraDataHeader with gasLimit := 8007813 }
        sampleParent = Except.ok 1000488 ∧
      sampleParent.gasLimit + sampleParent.gasLimit / 1024 - 1 < 8007813 ∧
      verify sampleEngine Strictness.CheckEverything
        { longExtraDataHeader with gasLimit := 8007813 } sampleParent []
        = Except.error Exception.ExtraDataTooBig := by
  decide

/-- C6, amended: for every header `H` with number != 0 whose difficulty checks and extra-data
size check pass (after the base-class check has passed), every parent `P` and bound divisor
`D >= 1` with `P.gasLimit + P.gasLimit / D < 2^256`, `verify` raises `InvalidGasLimit` if and
only if `H.gasLimit` lies outside the interval
`[max(minGasLimit, P.gasLimit - P.gasLimit/D + 1), min(maxGasLimit, P.gasLimit + P.gasLimit/D - 1)]`
(integer division). -/
theorem verify_InvalidGasLimit_iff (E : Ethash) (s : Strictness) (H P : BlockHeader)
    (block : bytes) (hb : E.SealEngineFace_verify s H P block = Except.ok ())
    (_hn : H.number ≠ 0)
    (hmin : s ≠ Strictness.CheckNothingNew → E.chainParams.minimumDifficulty ≤ H.difficulty)
    (hexp : calculateDifficultyOfParent E H P = Except.ok H.difficulty)
    (hx : s ≠ Strictness.CheckNothingNew →
      H.extraData.length ≤ E.chainParams.maximumExtraDataSize)
    (hD : 1 ≤ E.chainParams.gasLimitBoundDivisor)
    (hov : P.gasLimit + P.gasLimit / E.chainParams.gasLimitBoundDivisor < 2 ^ 256) :
    verify E s H P block = Except.error Exception.InvalidGasLimit ↔
      ¬ (max (E.chainParams.minGasLimit : Int)
            ((P.gasLimit : Int)
              - ((P.gasLimit / E.chainParams.gasLimitBoundDivisor : Nat) : Int) + 1)
          ≤ (H.gasLimit : Int) ∧
        (H.gasLimit : Int) ≤ min (E.chainParams.maxGasLimit : Int)
            ((P.gasLimit : Int)
              + ((P.gasLimit / E.chainParams.gasLimitBoundDivisor : Nat) : Int) - 1)) := by
  have hq : P.gasLimit / E.chainParams.gasLimitBoundDivisor ≤ P.gasLimit := Nat.div_le_self _ _
  have henv := verifyEnvelope_eq_gas_test E s H P block hb hmin hexp hx hD hov
  rw [max_le_iff, le_min_iff]
  by_cases hout : H.gasLimit < E.chainParams.minGasLimit ∨
      H.gasLimit > E.chainParams.maxGasLimit ∨
      H.gasLimit ≤ P.gasLimit - P.gasLimit / E.chainParams.gasLimitBoundDivisor ∨
      P.gasLimit + P.gasLimit / E.chainParams.gasLimitBoundDivisor ≤ H.gasLimit
  · rw [if_pos hout] at henv
    rw [verify_eq_of_envelope_error E s H P block _ henv]
    simp only [true_iff]
    omega
  · rw [if_neg hout] at henv
    rw [verify_eq_of_envelope_ok E s H P block henv]
    have hin : ¬ ¬ (((E.chainParams.minGasLimit : Int) ≤ (H.gasLimit : Int) ∧
        (P.gasLimit : Int) - ((P.gasLimit / E.chainParams.gasLimitBoundDivisor : Nat) : Int) + 1
          ≤ (H.gasLimit : Int)) ∧
        ((H.gasLimit : Int) ≤ (E.chainParams.maxGasLimit : Int) ∧
        (H.gasLimit : Int) ≤ (P.gasLimit : Int)
          + ((P.gasLimit / E.chainParams.gasLimitBoundDivisor : Nat) : Int) - 1)) := by
      omega
    split_ifs
    · exact ⟨fun hc => (by cases hc), fun hc => absurd hc hin⟩
    · exact ⟨fun hc => (by cases hc), fun hc => absurd hc hin⟩

/-- C6, amended, at the concrete inputs of the claim: with parent gas limit 8_000_000 and
divisor 1024, gas limit 8_007_813 is rejected with `InvalidGasLimit` and gas limit 8_007_811 is
accepted. -/
theorem verify_InvalidGasLimit_iff_witness :
    verify sampleEngine Strictness.CheckEverything { sealedHeader with gasLimit := 8007813 }
        sampleParent [] = Except.error Exception.InvalidGasLimit ∧
      verify sampleEngine Strictness.CheckEverything { sealedHeader with gasLimit := 8007811 }
        sampleParent [] = Except.ok () :=
  ⟨(verify_InvalidGasLimit_iff sampleEngine Strictness.CheckEverything
      { sealedHeader with gasLimit := 8007813 } sampleParent [] rfl (by decide)
      (fun _ => by decide) (by decide) (fun _ => by decide) (by decide) (by decide)).mpr
      (by decide),
    by decide⟩

/-! ## The seal check of `verify` -/

/-- C7, as stated, fails: at strictness `CheckEverything` a header with zero `parentHash` that
passes the checks preceding the seal check is accepted by `verify` although `verifySeal`
rejects it. -/
theorem verify_skips_seal_for_zero_parentHash :
    Strictness.CheckEverything ≠ Strictness.CheckNothingNew ∧
      verifyEnvelope sampleEngine Strictness.CheckEverything (unsealedHeader 0) sampleParent []
        = Except.ok () ∧
      verifySeal sampleEngine (unsealedHeader 0) sampleParent = false ∧
      verify sampleEngine Strictness.CheckEverything (unsealedHeader 0) sampleParent []
        = Except.ok () := by
  decide

/-- C7, amended: for a header/parent pair that passes all checks preceding the seal check and
that `verifySeal` rejects, `verify` raises `InvalidBlockNonce` when the strictness is
`CheckEverything` or `QuickNonce` and the header's `parentHash` is non-zero; at any other
strictness, or with a zero `parentHash`, `verify` returns normally. -/
theorem verify_enforces_seal (E : Ethash) (s : Strictness) (H P : BlockHeader) (block : bytes)
    (henv : verifyEnvelope E s H P block = Except.ok ()) (hseal : verifySeal E H P = false) :
    ((s = Strictness.CheckEverything ∨ s = Strictness.QuickNonce) ∧ H.parentHash ≠ 0 →
      verify E s H P block = Except.error Exception.InvalidBlockNonce) ∧
    (¬ ((s = Strictness.CheckEverything ∨ s = Strictness.QuickNonce) ∧ H.parentHash ≠ 0) →
      verify E s H P block = Except.ok ()) := by
  rw [verify_eq_of_envelope_ok E s H P block henv]
  constructor
  · intro h
    rw [if_pos ⟨h.1, h.2, hseal⟩]
  · intro h
    rw [if_neg (fun hc => h ⟨hc.1, hc.2.1⟩)]

/-- C7, amended, at concrete inputs: the unsealed child with `parentHash` 424_242 raises
`InvalidBlockNonce` at `CheckEverything`, and is accepted at `CheckNothingNew`. -/
theorem verify_enforces_seal_witness :
    verify sampleEngine Strictness.CheckEverything (unsealedHeader 424242) sampleParent []
        = Except.error Exception.InvalidBlockNonce ∧
      verify sampleEngine Strictness.CheckNothingNew (unsealedHeader 424242) sampleParent []
        = Except.ok () :=
  ⟨(verify_enforces_seal sampleEngine Strictness.CheckEverything (unsealedHeader 424242)
      sampleParent [] (by decide) (by decide)).1 (by decide),
    (verify_enforces_seal sampleEngine Strictness.CheckNothingNew (unsealedHeader 424242)
      sampleParent [] (by decide) (by decide)).2 (by decide)⟩

/-- C8, as stated, fails: `sealedHeader` is accepted by `verifySeal`; changing only its stake
modifier gives a header that `verifySeal` rejects but that `verify` accepts at strictness
`CheckEverything`, because its `parentHash` is zero. -/
theorem verify_accepts_mutated_stakeModifier :
    verifySeal sampleEngine sealedHeader sampleParent = true ∧
      sealedHeader.stakeModifier + 1 ≠ sealedHeader.stakeModifier ∧
      verifySeal sampleEngine
        { sealedHeader with stakeModifier := sealedHeader.stakeModifier + 1 } sampleParent
        = false ∧
      verify sampleEngine Strictness.CheckEverything
        { sealedHeader with stakeModifier := sealedHeader.stakeModifier + 1 } sampleParent []
        = Except.ok () := by
  decide

/-- C8, amended: for every header `H` accepted by `verifySeal` with parent `P`, every header that
differs from `H` only in the stake modifier is rejected by `verifySeal` with the same parent; and
it is rejected by `verify` at strictness `CheckEverything` with `InvalidBlockNonce` when its
`parentHash` is non-zero and it passes the checks preceding the seal check. -/
theorem verifySeal_rejects_mutated_stakeModifier (E : Ethash) (H P : BlockHeader) (sm : Nat)
    (block : bytes) (hacc : verifySeal E H P = true) (hsm : sm ≠ H.stakeModifier) :
    verifySeal E { H with stakeModifier := sm } P = false ∧
    (H.parentHash ≠ 0 →
      verifyEnvelope E Strictness.CheckEverything { H with stakeModifier := sm } P block
        = Except.ok () →
      verify E Strictness.CheckEverything { H with stakeModifier := sm } P block
        = Except.error Exception.InvalidBlockNonce) := by
  have hrej : verifySeal E { H with stakeModifier := sm } P = false := by
    unfold verifySeal at hacc ⊢
    by_cases hn : H.number = P.number + 1
    · simp only [hn, ne_eq, not_true_eq_false, if_false, Bool.and_eq_true,
        decide_eq_true_eq] at hacc
      have hmod : H.stakeModifier
          = computeChildStakeModifier E P.stakeModifier H.publicKey H.stakeSignature :=
        hacc.1.1.2
      have hne : ¬ (sm = computeChildStakeModifier E P.stakeModifier H.publicKey
          H.stakeSignature) := by
        rw [← hmod]
        exact hsm
      simp [hn, hne]
    · simp [hn]
  refine ⟨hrej, fun hp henv => ?_⟩
  rw [verify_eq_of_envelope_ok E _ _ P block henv]
  rw [if_pos ⟨Or.inl rfl, hp, hrej⟩]

/-- C8, amended, at a concrete input: `sealedChild` (non-zero `parentHash`) is accepted by
`verifySeal`; with its stake modifier replaced by 5 it is rejected by `verifySeal` and by
`verify` at `CheckEverything` with `InvalidBlockNonce`. -/
theorem verifySeal_rejects_mutated_stakeModifier_witness :
    verifySeal sampleEngine sealedChild sampleParent = true ∧
      verifySeal sampleEngine { sealedChild with stakeModifier := 5 } sampleParent = false ∧
      verify sampleEngine Strictness.CheckEverything { sealedChild with stakeModifier := 5 }
        sampleParent [] = Except.error Exception.InvalidBlockNonce :=
  ⟨by decide,
    (verifySeal_rejects_mutated_stakeModifier sampleEngine sealedChild sampleParent 5 []
      (by decide) (by decide)).1,
    (verifySeal_rejects_mutated_stakeModifier sampleEngine sealedChild sampleParent 5 []
      (by decide) (by decide)).2 (by decide) (by decide)⟩

/-! ## Rejection by the difficulty and extra-data checks -/

/-- Once the base-class check has passed, a header of number != 0 with difficulty below
`minimumDifficulty` raises `InvalidDifficulty`, at every strictness. -/
theorem verify_below_minimumDifficulty_of_base_ok (E : Ethash) (s : Strictness)
    (H P : BlockHeader) (block : bytes)
    (hb : E.SealEngineFace_verify s H P block = Except.ok ())
    (hm : E.chainParams.minimumDifficulty < 2 ^ 256) (hn : H.number ≠ 0)
    (hd : H.difficulty < E.chainParams.minimumDifficulty) :
    verify E s H P block = Except.error Exception.InvalidDifficulty := by
  apply verify_eq_of_envelope_error
  rw [verifyEnvelope_eq E s H P block hb, verifyBounds_eq]
  by_cases hs : s = Strictness.CheckNothingNew
  · obtain ⟨v, hv, hge⟩ := calculateDifficultyOfParent_ge E H P hn hm
    have hne : H.difficulty ≠ v := by omega
    simp only [hs, ne_eq, not_true_eq_false, if_false]
    unfold verifyAgainstParent
    rw [hv]
    simp only [bind, Except.bind, hne, ne_eq, not_false_eq_true, if_true, throw, throwThe,
      MonadExceptOf.throw]
  · simp only [hs, ne_eq, not_false_eq_true, if_true, hd]

/-- An error of the base-class check is the error of `verify`. -/
theorem verify_eq_of_base_error (E : Ethash) (s : Strictness) (H P : BlockHeader)
    (block : bytes) (e : Exception)
    (hb : E.SealEngineFace_verify s H P block = Except.error e) :
    verify E s H P block = Except.error e := by
  apply verify_eq_of_envelope_error
  unfold verifyEnvelope
  simp only [bind, Except.bind, hb]

/-- With a zero `gasLimitBoundDivisor`, a header whose difficulty is the retargeted one never
gets `InvalidGasLimit` from the parent block: the division error escapes, from the condition or
from the construction of the exception. -/
theorem verifyAgainstParent_zero_divisor (E : Ethash) (H P : BlockHeader)
    (hv : calculateDifficultyOfParent E H P = Except.ok H.difficulty)
    (hD : E.chainParams.gasLimitBoundDivisor = 0) :
    verifyAgainstParent E H P = Except.error Exception.std_overflow_error := by
  unfold verifyAgainstParent u256div
  rw [hv]
  simp only [bind, Except.bind, pure, Except.pure, throw, throwThe, MonadExceptOf.throw, hD,
    if_true, ne_eq, not_true_eq_false, if_false]
  split_ifs <;> rfl

/-- C9, as stated, fails: on an engine whose base-class check rejects a header of number 7 after
a parent of number 4, the header of difficulty 1_000 (minimum 131_072) raises the error of the
base class, not `InvalidDifficulty`. -/
theorem verify_base_class_error_before_difficulty :
    (sampleHeader 7 101 1000 8000000).number ≠ 0 ∧
      (sampleHeader 7 101 1000 8000000).difficulty
        < continuityCheckingEngine.chainParams.minimumDifficulty ∧
      verify continuityCheckingEngine Strictness.CheckEverything
        (sampleHeader 7 101 1000 8000000) sampleParent []
        = Except.error (Exception.BaseClassFailure 1) ∧
      verify continuityCheckingEngine Strictness.CheckEverything
        (sampleHeader 7 101 1000 8000000) sampleParent []
        ≠ Except.error Exception.InvalidDifficulty := by
  decide

/-- C9, amended: for every strictness, every parent and every header with number != 0 whose
difficulty is below `minimumDifficulty` (a 256-bit chain parameter), `verify` never returns
normally; and once the base-class check has passed it raises `InvalidDifficulty`, never a later
error. -/
theorem verify_below_minimumDifficulty (E : Ethash) (s : Strictness) (H P : BlockHeader)
    (block : bytes) (hm : E.chainParams.minimumDifficulty < 2 ^ 256) (hn : H.number ≠ 0)
    (hd : H.difficulty < E.chainParams.minimumDifficulty) :
    verify E s H P block ≠ Except.ok () ∧
    (E.SealEngineFace_verify s H P block = Except.ok () →
      verify E s H P block = Except.error Exception.InvalidDifficulty) := by
  constructor
  · cases hb : E.SealEngineFace_verify s H P block with
    | error e =>
      rw [verify_eq_of_base_error E s H P block e hb]
      intro hc
      cases hc
    | ok u =>
      rw [verify_below_minimumDifficulty_of_base_ok E s H P block hb hm hn hd]
      intro hc
      cases hc
  · intro hb
    exact verify_below_minimumDifficulty_of_base_ok E s H P block hb hm hn hd

/-- C9, amended, at concrete inputs: a header of difficulty 1_000 (minimum 131_072) on the
sample engine raises `InvalidDifficulty` at strictness `CheckEverything` and at
`CheckNothingNew`; on the engine whose base class rejects it, `verify` does not return
normally. -/
theorem verify_below_minimumDifficulty_witness :
    verify sampleEngine Strictness.CheckEverything (sampleHeader 5 101 1000 8000000) sampleParent []
        = Except.error Exception.InvalidDifficulty ∧
      verify sampleEngine Strictness.CheckNothingNew (sampleHeader 5 101 1000 8000000)
        sampleParent [] = Except.error Exception.InvalidDifficulty ∧
      verify continuityCheckingEngine Strictness.CheckEverything
        (sampleHeader 7 101 1000 8000000) sampleParent [] ≠ Except.ok () :=
  ⟨(verify_below_minimumDifficulty sampleEngine Strictness.CheckEverything
      (sampleHeader 5 101 1000 8000000) sampleParent [] (by decide) (by decide) (by decide)).2
      rfl,
    (verify_below_minimumDifficulty sampleEngine Strictness.CheckNothingNew
      (sampleHeader 5 101 1000 8000000) sampleParent [] (by decide) (by decide) (by decide)).2
      rfl,
    (verify_below_minimumDifficulty continuityCheckingEngine Strictness.CheckEverything
      (sampleHeader 7 101 1000 8000000) sampleParent [] (by decide) (by decide) (by decide)).1⟩

/-- C10, as stated, fails: at strictness `CheckNothingNew` a header with 33 bytes of extra data
(maximum 32) passes `verify`. -/
theorem verify_accepts_long_extraData_at_CheckNothingNew :
    longExtraDataHeader.extraData.length > sampleEngine.chainParams.maximumExtraDataSize ∧
      verify sampleEngine Strictness.CheckNothingNew longExtraDataHeader sampleParent []
        = Except.ok () := by
  decide

/-- C10, amended: for every strictness other than `CheckNothingNew` and every header whose
extra data is longer than `maximumExtraDataSize`, `verify` does not return normally: it raises
an exception. -/
theorem verify_rejects_long_extraData (E : Ethash) (s : Strictness) (H P : BlockHeader)
    (block : bytes) (hs : s ≠ Strictness.CheckNothingNew)
    (hx : H.extraData.length > E.chainParams.maximumExtraDataSize) :
    verify E s H P block ≠ Except.ok () ∧ ∃ e, verify E s H P block = Except.error e := by
  have hne : verify E s H P block ≠ Except.ok () := by
    intro hok
    have henv := verify_ok_imp_envelope_ok E s H P block hok
    obtain ⟨_, hbounds, hparent⟩ := (verifyEnvelope_ok_iff E s H P block).mp henv
    have h4 := ((verifyBounds_ok_iff E s H).mp hbounds hs).2.2.2
    have h0 : H.number = 0 := by
      rcases h4 with h0 | h1
      · exact h0
      · omega
    rw [verifyAgainstParent_genesis E H P h0] at hparent
    cases hparent
  refine ⟨hne, ?_⟩
  cases hv : verify E s H P block with
  | error e => exact ⟨e, rfl⟩
  | ok u => exact absurd hv hne

/-- C10, amended, at a concrete input: the header with 33 bytes of extra data is rejected at
strictness `CheckEverything`. -/
theorem verify_rejects_long_extraData_witness :
    verify sampleEngine Strictness.CheckEverything longExtraDataHeader sampleParent []
      ≠ Except.ok () :=
  (verify_rejects_long_extraData sampleEngine Strictness.CheckEverything longExtraDataHeader
    sampleParent [] (by decide) (by decide)).1

/-! ## The order of the checks of `verify` -/

/-- The checks preceding the seal check as a first-failure chain: the three bounds of the
strictness-guarded block, then the retarget and the gas limit against the parent. -/
theorem verifyEnvelope_eq_firstFailure (E : Ethash) (s : Strictness) (H P : BlockHeader)
    (block : bytes) (expected : Nat)
    (hb : E.SealEngineFace_verify s H P block = Except.ok ())
    (hexp : calculateDifficultyOfParent E H P = Except.ok expected)
    (hD : 1 ≤ E.chainParams.gasLimitBoundDivisor) :
    verifyEnvelope E s H P block = firstFailure
      [(decide (s ≠ Strictness.CheckNothingNew ∧ H.difficulty < E.chainParams.minimumDifficulty),
          Exception.InvalidDifficulty),
        (decide (s ≠ Strictness.CheckNothingNew ∧
            (H.gasLimit < E.chainParams.minGasLimit ∨ H.gasLimit > E.chainParams.maxGasLimit)),
          Exception.InvalidGasLimit),
        (decide (s ≠ Strictness.CheckNothingNew ∧
            H.extraData.length > E.chainParams.maximumExtraDataSize),
          Exception.ExtraDataTooBig),
        (decide (H.difficulty ≠ expected), Exception.InvalidDifficulty),
        (decide (H.gasLimit < E.chainParams.minGasLimit ∨
            H.gasLimit > E.chainParams.maxGasLimit ∨
            H.gasLimit ≤ u256sub P.gasLimit (P.gasLimit / E.chainParams.gasLimitBoundDivisor) ∨
            H.gasLimit ≥ u256add P.gasLimit (P.gasLimit / E.chainParams.gasLimitBoundDivisor)),
          Exception.InvalidGasLimit)] := by
  have hn : H.number ≠ 0 := by
    intro h0
    unfold calculateDifficultyOfParent calculateDifficulty at hexp
    rw [if_pos h0] at hexp
    cases hexp
  rw [verifyEnvelope_eq E s H P block hb, verifyBounds_eq,
    verifyAgainstParent_eq E H P expected hexp (by omega)]
  unfold u256sub u256add
  simp only [firstFailure, decide_eq_true_eq]
  by_cases hs : s = Strictness.CheckNothingNew
  · simp only [hs, ne_eq, not_true_eq_false, if_false, false_and]
    split_ifs <;> first | rfl | tauto
  · simp only [hs, ne_eq, not_false_eq_true, if_true, true_and, hn]
    split_ifs <;> first | rfl | tauto

theorem firstFailure_append (l : List (Bool × Exception)) (x : Bool × Exception) :
    firstFailure (l ++ [x]) =
      match firstFailure l with
      | Except.error e => Except.error e
      | Except.ok _ => firstFailure [x] := by
  induction l with
  | nil => rfl
  | cons c rest ih =>
    obtain ⟨failed, e⟩ := c
    by_cases hf : failed = true
    · simp [firstFailure, hf]
    · simp only [List.cons_append, firstFailure, hf, if_false]
      exact ih

theorem firstFailure_error_mem (l : List (Bool × Exception)) (e : Exception)
    (h : firstFailure l = Except.error e) : e ∈ l.map Prod.snd := by
  induction l with
  | nil => cases h
  | cons c rest ih =>
    obtain ⟨failed, e2⟩ := c
    by_cases hf : failed = true
    · simp only [firstFailure, hf, if_true] at h
      cases h
      simp
    · simp only [firstFailure, hf, if_false] at h
      simp only [List.map_cons, List.mem_cons]
      exact Or.inr (ih h)

/-- C11, as stated, fails at strictness `CheckNothingNew`: a header that violates the extra-data
size bound and the seal predicate is accepted (no envelope error is raised); and a header whose
gas limit 1_000 is below `minGasLimit` and whose difficulty 2_000_000 is not the retargeted
1_000_488 raises `InvalidDifficulty`, although the absolute gas-limit bounds come before the
retarget in the stated order. -/
theorem verify_order_fails_at_CheckNothingNew :
    (longExtraDataHeader.extraData.length > sampleEngine.chainParams.maximumExtraDataSize ∧
      verifySeal sampleEngine longExtraDataHeader sampleParent = false ∧
      verify sampleEngine Strictness.CheckNothingNew longExtraDataHeader sampleParent []
        = Except.ok ()) ∧
    ((sampleHeader 5 101 2000000 1000).gasLimit < sampleEngine.chainParams.minGasLimit ∧
      sampleEngine.chainParams.minimumDifficulty ≤ (sampleHeader 5 101 2000000 1000).difficulty ∧
      calculateDifficultyOfParent sampleEngine (sampleHeader 5 101 2000000 1000) sampleParent
        = Except.ok 1000488 ∧
      verify sampleEngine Strictness.CheckNothingNew (sampleHeader 5 101 2000000 1000)
        sampleParent [] = Except.error Exception.InvalidDifficulty) := by
  decide

/-- C11, amended: once the base-class check has passed, for a header with number != 0 (its
retarget `expected` is computed) and a bound divisor >= 1, `verify` returns normally or raises
exactly one error, the first failure in the fixed order: at strictness other than
`CheckNothingNew` the minimum difficulty, the absolute gas-limit bounds and the extra-data size;
then at every strictness the difficulty retarget mismatch and the gas-limit bounds (absolute and
parent-relative); and only then the seal predicate (at `CheckEverything` or `QuickNonce`, for a
non-zero `parentHash`). Consequently a header that fails one of the checks before the seal check
raises `InvalidDifficulty`, `InvalidGasLimit` or `ExtraDataTooBig`, not `InvalidBlockNonce`,
whatever its seal. -/
theorem verify_eq_firstFailure (E : Ethash) (s : Strictness) (H P : BlockHeader)
    (block : bytes) (expected : Nat)
    (hb : E.SealEngineFace_verify s H P block = Except.ok ())
    (hexp : calculateDifficultyOfParent E H P = Except.ok expected)
    (hD : 1 ≤ E.chainParams.gasLimitBoundDivisor) :
    verify E s H P block = firstFailure
      [(decide (s ≠ Strictness.CheckNothingNew ∧ H.difficulty < E.chainParams.minimumDifficulty),
          Exception.InvalidDifficulty),
        (decide (s ≠ Strictness.CheckNothingNew ∧
            (H.gasLimit < E.chainParams.minGasLimit ∨ H.gasLimit > E.chainParams.maxGasLimit)),
          Exception.InvalidGasLimit),
        (decide (s ≠ Strictness.CheckNothingNew ∧
            H.extraData.length > E.chainParams.maximumExtraDataSize),
          Exception.ExtraDataTooBig),
        (decide (H.difficulty ≠ expected), Exception.InvalidDifficulty),
        (decide (H.gasLimit < E.chainParams.minGasLimit ∨
            H.gasLimit > E.chainParams.maxGasLimit ∨
            H.gasLimit ≤ u256sub P.gasLimit (P.gasLimit / E.chainParams.gasLimitBoundDivisor) ∨
            H.gasLimit ≥ u256add P.gasLimit (P.gasLimit / E.chainParams.gasLimitBoundDivisor)),
          Exception.InvalidGasLimit),
        (decide ((s = Strictness.CheckEverything ∨ s = Strictness.QuickNonce) ∧
            H.parentHash ≠ 0 ∧ verifySeal E H P = false),
          Exception.InvalidBlockNonce)] ∧
    (verifyEnvelope E s H P block ≠ Except.ok () →
      ∃ e, verify E s H P block = Except.error e ∧ e ≠ Exception.InvalidBlockNonce ∧
        (e = Exception.InvalidDifficulty ∨ e = Exception.InvalidGasLimit ∨
          e = Exception.ExtraDataTooBig)) := by
  have henv := verifyEnvelope_eq_firstFailure E s H P block expected hb hexp hD
  constructor
  · have happ := firstFailure_append
      [(decide (s ≠ Strictness.CheckNothingNew ∧ H.difficulty < E.chainParams.minimumDifficulty),
          Exception.InvalidDifficulty),
        (decide (s ≠ Strictness.CheckNothingNew ∧
            (H.gasLimit < E.chainParams.minGasLimit ∨ H.gasLimit > E.chainParams.maxGasLimit)),
          Exception.InvalidGasLimit),
        (decide (s ≠ Strictness.CheckNothingNew ∧
            H.extraData.length > E.chainParams.maximumExtraDataSize),
          Exception.ExtraDataTooBig),
        (decide (H.difficulty ≠ expected), Exception.InvalidDifficulty),
        (decide (H.gasLimit < E.chainParams.minGasLimit ∨
            H.gasLimit > E.chainParams.maxGasLimit ∨
            H.gasLimit ≤ u256sub P.gasLimit (P.gasLimit / E.chainParams.gasLimitBoundDivisor) ∨
            H.gasLimit ≥ u256add P.gasLimit (P.gasLimit / E.chainParams.gasLimitBoundDivisor)),
          Exception.InvalidGasLimit)]
      (decide ((s = Strictness.CheckEverything ∨ s = Strictness.QuickNonce) ∧
            H.parentHash ≠ 0 ∧ verifySeal E H P = false), Exception.InvalidBlockNonce)
    simp only [List.cons_append, List.nil_append] at happ
    rw [happ, ← henv]
    cases hres : verifyEnvelope E s H P block with
    | error e => exact verify_eq_of_envelope_error E s H P block e hres
    | ok u =>
      rw [verify_eq_of_envelope_ok E s H P block hres]
      simp only [firstFailure, decide_eq_true_eq]
  · intro hne
    cases hres : verifyEnvelope E s H P block with
    | ok u => exact absurd hres hne
    | error e =>
      refine ⟨e, verify_eq_of_envelope_error E s H P block e hres, ?_⟩
      rw [henv] at hres
      have hmem := firstFailure_error_mem _ e hres
      simp only [List.map_cons, List.map_nil, List.mem_cons, List.mem_singleton,
        List.not_mem_nil, or_false] at hmem
      rcases hmem with h | h | h | h | h <;> subst h <;> simp

/-- C11, amended, at a concrete input: at `CheckEverything` the header with 33 bytes of extra
data and an empty seal raises an envelope error, not `InvalidBlockNonce`. -/
theorem verify_eq_firstFailure_witness :
    ∃ e, verify sampleEngine Strictness.CheckEverything longExtraDataHeader sampleParent []
        = Except.error e ∧ e ≠ Exception.InvalidBlockNonce ∧
      (e = Exception.InvalidDifficulty ∨ e = Exception.InvalidGasLimit ∨
        e = Exception.ExtraDataTooBig) :=
  (verify_eq_firstFailure sampleEngine Strictness.CheckEverything longExtraDataHeader
    sampleParent [] 1000488 rfl (by decide) (by decide)).2 (by decide)

/-! ## Genesis and monotonicity of the retarget -/

/-- C12: `calculateDifficulty` raises `GenesisBlockCannotBeCalculated` for every header whose
number is 0, whatever the parent timestamp and difficulty, and returns a value (raises nothing)
for every header whose number is not 0. -/
theorem calculateDifficulty_genesis (E : Ethash) (H : BlockHeader) (pt pd : Int) :
    (H.number = 0 →
      calculateDifficulty E H pt pd = Except.error Exception.GenesisBlockCannotBeCalculated) ∧
    (H.number ≠ 0 → ∃ r : Nat, calculateDifficulty E H pt pd = Except.ok r) := by
  constructor
  · intro h0
    unfold calculateDifficulty
    rw [if_pos h0]
  · intro hn
    exact ⟨_, calculateDifficulty_ok E H pt pd hn⟩

/-- C12, at concrete inputs: a header of number 0 and a header of number 5 on the sample
engine. -/
theorem calculateDifficulty_genesis_witness :
    calculateDifficulty sampleEngine (sampleHeader 0 101 0 0) 100 1000000
        = Except.error Exception.GenesisBlockCannotBeCalculated ∧
      ∃ r : Nat, calculateDifficulty sampleEngine (sampleHeader 5 101 0 0) 100 1000000
        = Except.ok r :=
  ⟨(calculateDifficulty_genesis sampleEngine (sampleHeader 0 101 0 0) 100 1000000).1 rfl,
    (calculateDifficulty_genesis sampleEngine (sampleHeader 5 101 0 0) 100 1000000).2
      (by decide)⟩

/-- Truncating division by a non-negative divisor, in terms of flooring division. -/
theorem tdiv_cases (a k : Int) (hk : 0 ≤ k) :
    (0 ≤ a ∧ a.tdiv k = a / k) ∨ (a < 0 ∧ a.tdiv k = -((-a) / k)) := by
  by_cases ha : 0 ≤ a
  · exact Or.inl ⟨ha, Int.tdiv_eq_ediv ha hk⟩
  · right
    have hlt : a < 0 := by omega
    refine ⟨hlt, ?_⟩
    have h1 : (-(-a)).tdiv k = -((-a).tdiv k) := Int.neg_tdiv (-a) k
    rw [neg_neg] at h1
    rw [h1, Int.tdiv_eq_ediv (by omega) hk]

/-- The adjustment factor does not increase with the candidate timestamp. -/
theorem adjFactor_antitone (t1 t2 : Nat) (pt : Int) (ht : t1 ≤ t2) :
    max (1 - ((t2 : Int) - pt).tdiv 9) (-99) ≤ max (1 - ((t1 : Int) - pt).tdiv 9) (-99) := by
  have h1 := tdiv_cases ((t1 : Int) - pt) 9 (by norm_num)
  have h2 := tdiv_cases ((t2 : Int) - pt) 9 (by norm_num)
  have hle : ((t1 : Int) - pt).tdiv 9 ≤ ((t2 : Int) - pt).tdiv 9 := by
    rcases h1 with ⟨_, e1⟩ | ⟨_, e1⟩ <;> rcases h2 with ⟨_, e2⟩ | ⟨_, e2⟩ <;>
      rw [e1, e2] <;> omega
  apply max_le_max _ (le_refl _)
  omega

/-- The retarget before the final conversion, `max(minimumDifficulty, target)`, does not increase
with the adjustment factor (for a negative parent difficulty the target is never positive). -/
theorem max_target_mono (m : Nat) (pd a1 a2 : Int) (h : a2 ≤ a1) (h1 : -99 ≤ a1)
    (h2 : -99 ≤ a2) :
    max (m : Int) (pd + pd.tdiv 2048 * a2) ≤ max (m : Int) (pd + pd.tdiv 2048 * a1) := by
  rcases tdiv_cases pd 2048 (by norm_num) with ⟨hpd, e⟩ | ⟨hpd, e⟩
  · have hq : 0 ≤ pd.tdiv 2048 := by rw [e]; omega
    have hmul : pd.tdiv 2048 * a2 ≤ pd.tdiv 2048 * a1 := mul_le_mul_of_nonneg_left h hq
    apply max_le_max (le_refl _)
    linarith
  · have hq : pd.tdiv 2048 ≤ 0 := by rw [e]; omega
    have hb : pd - 99 * pd.tdiv 2048 ≤ 0 := by rw [e]; omega
    have hneg : ∀ a : Int, -99 ≤ a → pd + pd.tdiv 2048 * a ≤ 0 := by
      intro a ha
      have hmul : pd.tdiv 2048 * a ≤ pd.tdiv 2048 * (-99) :=
        mul_le_mul_of_nonpos_left ha hq
      linarith
    have hm : (0 : Int) ≤ (m : Int) := Int.ofNat_nonneg _
    rw [max_eq_left (le_trans (hneg a2 h2) hm), max_eq_left (le_trans (hneg a1 h1) hm)]

/-- C13: for a fixed parent timestamp and difficulty and a fixed `minimumDifficulty`,
`calculateDifficulty` does not increase with the candidate timestamp: for headers of number != 0
with timestamps `t1 <= t2`, the difficulty at `t1` is at least the difficulty at `t2` (whether
or not the adjustment is clamped at -99). -/
theorem calculateDifficulty_antitone (E : Ethash) (H1 H2 : BlockHeader) (pt pd : Int)
    (hn1 : H1.number ≠ 0) (hn2 : H2.number ≠ 0) (ht : H1.timestamp ≤ H2.timestamp) :
    ∃ r1 r2 : Nat, calculateDifficulty E H1 pt pd = Except.ok r1 ∧
      calculateDifficulty E H2 pt pd = Except.ok r2 ∧ r2 ≤ r1 := by
  refine ⟨_, _, calculateDifficulty_ok E H1 pt pd hn1, calculateDifficulty_ok E H2 pt pd hn2, ?_⟩
  have hadj := adjFactor_antitone H1.timestamp H2.timestamp pt ht
  have hmax := max_target_mono E.chainParams.minimumDifficulty pd _ _ hadj
    (le_max_right _ _) (le_max_right _ _)
  have hc1 := u256_clamp_cast E.chainParams.minimumDifficulty
    (pd + pd.tdiv 2048 * max (1 - ((H1.timestamp : Int) - pt).tdiv 9) (-99))
  have hc2 := u256_clamp_cast E.chainParams.minimumDifficulty
    (pd + pd.tdiv 2048 * max (1 - ((H2.timestamp : Int) - pt).tdiv 9) (-99))
  have hle : ((u256 (min (max (E.chainParams.minimumDifficulty : Int)
      (pd + pd.tdiv 2048 * max (1 - ((H2.timestamp : Int) - pt).tdiv 9) (-99)))
      (u256Max : Int)) : Nat) : Int) ≤
      ((u256 (min (max (E.chainParams.minimumDifficulty : Int)
      (pd + pd.tdiv 2048 * max (1 - ((H1.timestamp : Int) - pt).tdiv 9) (-99)))
      (u256Max : Int)) : Nat) : Int) := by
    rw [hc1, hc2]
    exact min_le_min hmax (le_refl _)
  exact_mod_cast hle

/-- C13, at concrete inputs: with parent timestamp 100 and difficulty 1_000_000, the candidate
timestamps 101 and 200 give the difficulties 1_000_488 and 995_120. -/
theorem calculateDifficulty_antitone_witness :
    ∃ r1 r2 : Nat,
      calculateDifficulty sampleEngine (sampleHeader 5 101 0 0) 100 1000000 = Except.ok r1 ∧
      calculateDifficulty sampleEngine (sampleHeader 5 200 0 0) 100 1000000 = Except.ok r2 ∧
      r2 ≤ r1 :=
  calculateDifficulty_antitone sampleEngine (sampleHeader 5 101 0 0) (sampleHeader 5 200 0 0)
    100 1000000 (by decide) (by decide) (by decide)

/-! ## The sealer -/

/-- Conditions under which `verifySeal` accepts. -/
theorem verifySeal_of_conditions (E : Ethash) (H P : BlockHeader)
    (h1 : H.number = P.number + 1)
    (h2 : computeStakeSignatureHash E H.stakeSignature ≤ boundary H
      (E.m_balanceRetriever (E.publicToAddress H.publicKey) (E.toBlockNumber (H.number - 1))))
    (h3 : H.stakeModifier
      = computeChildStakeModifier E P.stakeModifier H.publicKey H.stakeSignature)
    (h4 : verifyBLS E H.publicKey H.stakeSignature
      (computeStakeMessage E P.stakeModifier H.timestamp) = true)
    (h5 : verifyBLS E H.publicKey H.blockSignature (E.hashWithoutSeal H) = true) :
    verifySeal E H P = true := by
  unfold verifySeal
  rw [if_neg (not_not.mpr h1)]
  simp only [Bool.and_eq_true, decide_eq_true_eq, verifyStakeSignature]
  exact ⟨⟨⟨h2, h3⟩, h5⟩, h4⟩

/-- When the header hash ignores the seal fields, the block signature written by the winning
step signs the hash of the sealed header. -/
theorem writeSeal_blockSignature (E : Ethash) (m_sealing parent : BlockHeader) (kp : KeyPair)
    (r : bytes)
    (hhash : ∀ (h : BlockHeader) (sm : Nat) (pk ss bs : bytes),
      E.hashWithoutSeal
        { h with stakeModifier := sm, publicKey := pk, stakeSignature := ss, blockSignature := bs }
        = E.hashWithoutSeal h) :
    (writeSeal E m_sealing parent kp r).blockSignature
      = signBLS E kp.secret (E.hashWithoutSeal (writeSeal E m_sealing parent kp r)) := by
  have e1 : E.hashWithoutSeal (writeSeal E m_sealing parent kp r) = E.hashWithoutSeal m_sealing :=
    hhash m_sealing _ _ _ _
  have e2 : (writeSeal E m_sealing parent kp r).blockSignature
      = signBLS E kp.secret (E.hashWithoutSeal m_sealing) :=
    congrArg (signBLS E kp.secret) (hhash m_sealing _ _ _ m_sealing.blockSignature)
  rw [e1, e2]

/-- A sealed header returned for one key pair is accepted by `verifySeal`. -/
theorem trySealWithKey_verifySeal (E : Ethash) (m_sealing parent sealed : BlockHeader)
    (kp : KeyPair)
    (hnum : m_sealing.number = parent.number + 1)
    (haddr : kp.address = E.publicToAddress kp.pub)
    (hhash : ∀ (h : BlockHeader) (sm : Nat) (pk ss bs : bytes),
      E.hashWithoutSeal
        { h with stakeModifier := sm, publicKey := pk, stakeSignature := ss, blockSignature := bs }
        = E.hashWithoutSeal h)
    (hbls : ∀ msg : Nat, verifyBLS E kp.pub (signBLS E kp.secret msg) msg = true)
    (hkey : trySealWithKey E m_sealing parent m_sealing.timestamp kp = some sealed) :
    verifySeal E sealed parent = true := by
  unfold trySealWithKey at hkey
  by_cases hmeet : computeStakeSignatureHash E
      (computeStakeSignature E (computeStakeMessage E parent.stakeModifier m_sealing.timestamp)
        kp.secret)
      ≤ boundary m_sealing (E.m_balanceRetriever kp.address
        (E.toBlockNumber (m_sealing.number - 1)))
  · simp only [hmeet, if_true, Option.some.injEq] at hkey
    subst hkey
    apply verifySeal_of_conditions
    · exact hnum
    · rw [haddr] at hmeet
      exact hmeet
    · rfl
    · exact hbls (computeStakeMessage E parent.stakeModifier m_sealing.timestamp)
    · rw [writeSeal_blockSignature E m_sealing parent kp _ hhash]
      exact hbls _
  · simp only [hmeet, if_false] at hkey
    cases hkey

/-- C14: when a pass of the sealing thread finds a key pair whose stake-signature hash meets the
boundary and fills the four seal fields, the resulting header satisfies `verifySeal` against the
parent (so the self-check assertion holds); assuming `candidate.number = parent.number + 1`,
`kp.address = toAddress(kp.pub)` for the registered key pairs, a header hash that does not
depend on the seal fields, and BLS signatures made with a key pair that verify under its public
key. -/
theorem sealThreadPass_verifySeal (E : Ethash) (candidate parent sealed : BlockHeader)
    (timestamp : Nat) (m_keyPairs : List KeyPair)
    (hnum : candidate.number = parent.number + 1)
    (haddr : ∀ kp ∈ m_keyPairs, kp.address = E.publicToAddress kp.pub)
    (hhash : ∀ (h : BlockHeader) (sm : Nat) (pk ss bs : bytes),
      E.hashWithoutSeal
        { h with stakeModifier := sm, publicKey := pk, stakeSignature := ss, blockSignature := bs }
        = E.hashWithoutSeal h)
    (hbls : ∀ kp ∈ m_keyPairs, ∀ msg : Nat,
      verifyBLS E kp.pub (signBLS E kp.secret msg) msg = true)
    (hpass : sealThreadPass E candidate parent timestamp m_keyPairs = Except.ok (sealed, true)) :
    verifySeal E sealed parent = true := by
  unfold sealThreadPass at hpass
  cases hd : calculateDifficultyOfParent E { candidate with timestamp := timestamp } parent with
  | error e =>
    simp only [hd, bind, Except.bind] at hpass
    cases hpass
  | ok d =>
    simp only [hd, bind, Except.bind] at hpass
    cases hf : m_keyPairs.findSome?
        (trySealWithKey E { candidate with timestamp := timestamp, difficulty := d } parent
          timestamp) with
    | none =>
      simp only [hf, pure, Except.pure, Except.ok.injEq, Prod.mk.injEq, Bool.false_eq_true,
        and_false] at hpass
    | some s4 =>
      simp only [hf, pure, Except.pure, Except.ok.injEq, Prod.mk.injEq, and_true] at hpass
      subst hpass
      obtain ⟨kp, hmem, hkp⟩ := List.exists_of_findSome?_eq_some hf
      exact trySealWithKey_verifySeal E
        { candidate with timestamp := timestamp, difficulty := d } parent s4 kp hnum
        (haddr kp hmem) hhash (hbls kp hmem) hkp

/-- The sample engine and key pair satisfy the assumptions of C14. -/
theorem sampleEngine_bls (msg : Nat) :
    verifyBLS sampleEngine sampleKeyPair.pub (signBLS sampleEngine sampleKeyPair.secret msg) msg
      = true := by
  simp [verifyBLS, signBLS, hashToElement, toPublicBLS, sampleEngine, sampleKeyPair]

/-- C14, at a concrete input: on the sample engine the pass at timestamp 101 over the sample key
pair seals the unsealed child into `sealedHeader`, which `verifySeal` accepts. -/
theorem sealThreadPass_verifySeal_witness :
    sealThreadPass sampleEngine (unsealedHeader 0) sampleParent 101 [sampleKeyPair]
        = Except.ok (sealedHeader, true) ∧
      verifySeal sampleEngine sealedHeader sampleParent = true :=
  ⟨by decide,
    sealThreadPass_verifySeal sampleEngine (unsealedHeader 0) sampleParent sealedHeader 101
      [sampleKeyPair] (by decide)
      (fun kp hkp => by
        rw [List.mem_singleton] at hkp
        subst hkp
        decide)
      (fun _ _ _ _ _ => rfl)
      (fun kp hkp msg => by
        rw [List.mem_singleton] at hkp
        subst hkp
        exact sampleEngine_bls msg)
      (by decide)⟩

/-- C15: a `generateSeal` request made while the generating flag is set leaves the engine state
unchanged: the slot keeps its header, the flag stays set and no sealing thread is started. In
particular, of two requests made from the idle state the first wins: after the second the slot
still holds the first candidate and exactly one thread has been started. -/
theorem generateSeal_while_generating (st : SealerState) (first _bi parent1 parent : BlockHeader) :
    (st.m_generating = true →
      generateSeal st _bi parent = st ∧
      (generateSeal st _bi parent).m_sealing = st.m_sealing ∧
      (generateSeal st _bi parent).m_generating = true ∧
      (generateSeal st _bi parent).sealThread = st.sealThread ∧
      (generateSeal st _bi parent).started = st.started) ∧
    (st.m_generating = false →
      generateSeal (generateSeal st first parent1) _bi parent = generateSeal st first parent1 ∧
      (generateSeal (generateSeal st first parent1) _bi parent).m_sealing = first ∧
      (generateSeal (generateSeal st first parent1) _bi parent).m_generating = true ∧
      (generateSeal (generateSeal st first parent1) _bi parent).sealThread = some parent1 ∧
      (generateSeal (generateSeal st first parent1) _bi parent).started = st.started + 1) := by
  constructor
  · intro h
    have e : generateSeal st _bi parent = st := by
      unfold generateSeal
      rw [if_neg (by rw [h]; decide)]
    rw [e]
    exact ⟨rfl, rfl, h, rfl, rfl⟩
  · intro h
    have e1 : generateSeal st first parent1
        = { m_generating := true, m_sealing := first, sealThread := some parent1,
            started := st.started + 1 } := by
      unfold generateSeal
      rw [if_pos h]
    have e2 : generateSeal (generateSeal st first parent1) _bi parent
        = generateSeal st first parent1 := by
      rw [e1]
      rfl
    rw [e2, e1]
    exact ⟨rfl, rfl, rfl, rfl, rfl⟩

/-- C15, at a concrete input: from an idle state, a request for `unsealedHeader 1` followed by a
request for `unsealedHeader 2` leaves the first candidate in the slot and one thread started. -/
theorem generateSeal_while_generating_witness :
    generateSeal
        (generateSeal
          { m_generating := false, m_sealing := sampleParent, sealThread := none, started := 0 }
          (unsealedHeader 1) sampleParent)
        (unsealedHeader 2) sampleParent
      = { m_generating := true, m_sealing := unsealedHeader 1, sealThread := some sampleParent,
          started := 1 } :=
  ((generateSeal_while_generating
      { m_generating := false, m_sealing := sampleParent, sealThread := none, started := 0 }
      (unsealedHeader 1) (unsealedHeader 2) sampleParent sampleParent).2 rfl).1.trans rfl

/-! ## Transaction pre-flight -/

theorem u256add_of_lt (a b : Nat) (h : a + b < 2 ^ 256) : u256add a b = a + b := by
  unfold u256add
  rw [← Nat.cast_add, u256_of_nat]
  exact Nat.mod_eq_of_lt h

theorem u256sub_of_le (a b : Nat) (hb : b ≤ a) (ha : a < 2 ^ 256) : u256sub a b = a - b := by
  unfold u256sub
  rw [← Nat.cast_sub hb, u256_of_nat]
  exact Nat.mod_eq_of_lt (lt_of_le_of_lt (Nat.sub_le _ _) ha)

theorem u256mul_of_lt (a b : Nat) (h : a * b < 2 ^ 256) : u256mul a b = a * b := by
  unfold u256mul
  rw [← Nat.cast_mul, u256_of_nat]
  exact Nat.mod_eq_of_lt h

/-- The branch of `childGasLimit` below the floor, without overflow. -/
theorem childGasLimit_below (E : Ethash) (Invalid256 : Nat) (parent : BlockHeader) (floor : Nat)
    (hg : 1 ≤ parent.gasLimit) (hD : 1 ≤ E.chainParams.gasLimitBoundDivisor)
    (hadd : parent.gasLimit + parent.gasLimit / E.chainParams.gasLimitBoundDivisor < 2 ^ 256)
    (hlt : parent.gasLimit < (if floor = Invalid256 then 3141562 else floor)) :
    childGasLimit E Invalid256 parent floor
      = Except.ok (min (if floor = Invalid256 then 3141562 else floor)
          (parent.gasLimit + parent.gasLimit / E.chainParams.gasLimitBoundDivisor - 1)) := by
  unfold childGasLimit u256div
  have hD0 : E.chainParams.gasLimitBoundDivisor ≠ 0 := by omega
  simp only [hlt, if_true, hD0, if_false, bind, Except.bind, pure, Except.pure]
  rw [u256add_of_lt _ _ hadd, u256sub_of_le _ _ (le_trans hg (Nat.le_add_right _ _)) hadd]

/-- The branch of `childGasLimit` at or above the floor, without overflow. -/
theorem childGasLimit_above (E : Ethash) (Invalid256 : Nat) (parent : BlockHeader) (floor : Nat)
    (hD : 1 ≤ E.chainParams.gasLimitBoundDivisor)
    (hg : parent.gasLimit < 2 ^ 256)
    (hmul : parent.gasUsed * 6 < 2 ^ 256)
    (hsum : parent.gasLimit - parent.gasLimit / E.chainParams.gasLimitBoundDivisor + 1
      + parent.gasUsed * 6 / 5 / E.chainParams.gasLimitBoundDivisor < 2 ^ 256)
    (hge : ¬ parent.gasLimit < (if floor = Invalid256 then 3141562 else floor)) :
    childGasLimit E Invalid256 parent floor
      = Except.ok (max (if floor = Invalid256 then 3141562 else floor)
          (parent.gasLimit - parent.gasLimit / E.chainParams.gasLimitBoundDivisor + 1
            + parent.gasUsed * 6 / 5 / E.chainParams.gasLimitBoundDivisor)) := by
  unfold childGasLimit u256div
  have hD0 : E.chainParams.gasLimitBoundDivisor ≠ 0 := by omega
  have hq : parent.gasLimit / E.chainParams.gasLimitBoundDivisor ≤ parent.gasLimit :=
    Nat.div_le_self _ _
  simp only [hge, if_false, hD0, bind, Except.bind, pure, Except.pure]
  rw [u256mul_of_lt _ _ hmul, u256sub_of_le _ _ hq hg,
    u256add_of_lt (parent.gasLimit - parent.gasLimit / E.chainParams.gasLimitBoundDivisor) 1
      (lt_of_le_of_lt (Nat.le_add_right _ _) hsum),
    u256add_of_lt _ _ hsum]

/-- C17: for a parent with gas limit `g >= 1`, gas used `u` and bound divisor `D >= 1` such that
no intermediate value (`g + g/D`, `u * 6`, `g - g/D + 1 + (u*6/5)/D`) exceeds `2^256 - 1`,
`childGasLimit(parent, floor)` is `min(floor, g + g/D - 1)` when `g < floor` and
`max(floor, g - g/D + 1 + (u * 6 / 5) / D)` otherwise (integer divisions), where `floor` is
3_141_562 when the caller passes `Invalid256`. -/
theorem childGasLimit_eq (E : Ethash) (Invalid256 : Nat) (parent : BlockHeader) (floor : Nat)
    (hg : 1 ≤ parent.gasLimit) (hD : 1 ≤ E.chainParams.gasLimitBoundDivisor)
    (hadd : parent.gasLimit + parent.gasLimit / E.chainParams.gasLimitBoundDivisor < 2 ^ 256)
    (hmul : parent.gasUsed * 6 < 2 ^ 256)
    (hsum : parent.gasLimit - parent.gasLimit / E.chainParams.gasLimitBoundDivisor + 1
      + parent.gasUsed * 6 / 5 / E.chainParams.gasLimitBoundDivisor < 2 ^ 256) :
    childGasLimit E Invalid256 parent floor
      = Except.ok
        (if parent.gasLimit < (if floor = Invalid256 then 3141562 else floor) then
          min (if floor = Invalid256 then 3141562 else floor)
            (parent.gasLimit + parent.gasLimit / E.chainParams.gasLimitBoundDivisor - 1)
        else
          max (if floor = Invalid256 then 3141562 else floor)
            (parent.gasLimit - parent.gasLimit / E.chainParams.gasLimitBoundDivisor + 1
              + parent.gasUsed * 6 / 5 / E.chainParams.gasLimitBoundDivisor)) := by
  by_cases hlt : parent.gasLimit < (if floor = Invalid256 then 3141562 else floor)
  · rw [if_pos hlt]
    exact childGasLimit_below E Invalid256 parent floor hg hD hadd hlt
  · rw [if_neg hlt]
    exact childGasLimit_above E Invalid256 parent floor hD
      (lt_of_le_of_lt (Nat.le_add_right _ _) hadd) hmul hsum hlt

/-- C17, at concrete inputs on the sample engine (divisor 1024, `Invalid256 = 2^256 - 1`): the
parent of gas limit 8_000_000 and gas used 0 gives 7_992_189 with the default floor, and
8_007_811 with the floor 9_000_000. -/
theorem childGasLimit_eq_witness :
    childGasLimit sampleEngine (2 ^ 256 - 1) sampleParent (2 ^ 256 - 1) = Except.ok 7992189 ∧
      childGasLimit sampleEngine (2 ^ 256 - 1) sampleParent 9000000 = Except.ok 8007811 :=
  ⟨(childGasLimit_eq sampleEngine (2 ^ 256 - 1) sampleParent (2 ^ 256 - 1) (by decide)
      (by decide) (by decide) (by decide) (by decide)).trans (by decide),
    (childGasLimit_eq sampleEngine (2 ^ 256 - 1) sampleParent 9000000 (by decide)
      (by decide) (by decide) (by decide) (by decide)).trans (by decide)⟩

/-- C18, as stated, fails: on the sample engine (divisor 1024) the parent of gas limit
`2^256 - 3` and gas used 0, with the floor `2^256 - 2`, has `g / D >= 2` and `g < floor`, but
`g + g/D - 1` wraps at 256 bits and the child gas limit is below `g`. -/
theorem childGasLimit_wraps_below_parent :
    2 ≤ (2 ^ 256 - 3) / sampleEngine.chainParams.gasLimitBoundDivisor ∧
      2 ^ 256 - 3 < 2 ^ 256 - 2 ∧
      childGasLimit sampleEngine (2 ^ 256 - 1)
        { sampleParent with gasLimit := 2 ^ 256 - 3 } (2 ^ 256 - 2)
        = Except.ok 113078212145816597093331040047546785012958969400039613319782796882727665659 ∧
      ¬ (2 ^ 256 - 3
        < 113078212145816597093331040047546785012958969400039613319782796882727665659) := by
  decide

/-- C18, amended: for `D >= 1`, a parent with gas used 0 and gas limit `g` with `g / D >= 2` and
`g + g / D < 2^256`, and `floor` the effective floor (3_141_562 when `Invalid256` is passed): if
`g < floor` then `g < childGasLimit <= floor`; if `g > floor` then
`floor <= childGasLimit < g`; and if `g = floor` then `childGasLimit = floor`. -/
theorem childGasLimit_converges (E : Ethash) (Invalid256 : Nat) (parent : BlockHeader)
    (floor : Nat) (hD : 1 ≤ E.chainParams.gasLimitBoundDivisor) (hu : parent.gasUsed = 0)
    (hq : 2 ≤ parent.gasLimit / E.chainParams.gasLimitBoundDivisor)
    (hadd : parent.gasLimit + parent.gasLimit / E.chainParams.gasLimitBoundDivisor < 2 ^ 256) :
    ∃ c : Nat, childGasLimit E Invalid256 parent floor = Except.ok c ∧
      (parent.gasLimit < (if floor = Invalid256 then 3141562 else floor) →
        parent.gasLimit < c ∧ c ≤ (if floor = Invalid256 then 3141562 else floor)) ∧
      (parent.gasLimit > (if floor = Invalid256 then 3141562 else floor) →
        (if floor = Invalid256 then 3141562 else floor) ≤ c ∧ c < parent.gasLimit) ∧
      (parent.gasLimit = (if floor = Invalid256 then 3141562 else floor) →
        c = (if floor = Invalid256 then 3141562 else floor)) := by
  have hle : parent.gasLimit / E.chainParams.gasLimitBoundDivisor ≤ parent.gasLimit :=
    Nat.div_le_self _ _
  have hg : 1 ≤ parent.gasLimit := by omega
  have hglt : parent.gasLimit < 2 ^ 256 := lt_of_le_of_lt (Nat.le_add_right _ _) hadd
  have hw : parent.gasUsed * 6 / 5 / E.chainParams.gasLimitBoundDivisor = 0 := by
    rw [hu]
    simp
  by_cases hlt : parent.gasLimit < (if floor = Invalid256 then 3141562 else floor)
  · refine ⟨_, childGasLimit_below E Invalid256 parent floor hg hD hadd hlt, ?_, ?_, ?_⟩
    · intro _
      refine ⟨lt_min hlt ?_, min_le_left _ _⟩
      generalize parent.gasLimit / E.chainParams.gasLimitBoundDivisor = q at hq
      omega
    · intro h
      omega
    · intro h
      omega
  · have hlt2 : parent.gasLimit - parent.gasLimit / E.chainParams.gasLimitBoundDivisor + 1
        + parent.gasUsed * 6 / 5 / E.chainParams.gasLimitBoundDivisor < parent.gasLimit := by
      rw [hw]
      generalize parent.gasLimit / E.chainParams.gasLimitBoundDivisor = q at hq hle
      omega
    refine ⟨_, childGasLimit_above E Invalid256 parent floor hD hglt (by rw [hu]; decide)
      (lt_trans hlt2 hglt) hlt, ?_, ?_, ?_⟩
    · intro h
      exact absurd h hlt
    · intro h
      exact ⟨le_max_left _ _, max_lt h hlt2⟩
    · intro h
      apply max_eq_left
      rw [← h]
      exact le_of_lt hlt2

/-- C18, amended, at concrete inputs on the sample engine: from gas limit 8_000_000 the child
limit moves toward the floor 3_141_562 (7_992_189), and toward the floor 9_000_000
(8_007_811). -/
theorem childGasLimit_converges_witness :
    (∃ c : Nat, childGasLimit sampleEngine (2 ^ 256 - 1) sampleParent (2 ^ 256 - 1)
        = Except.ok c ∧ 3141562 ≤ c ∧ c < 8000000) ∧
      (∃ c : Nat, childGasLimit sampleEngine (2 ^ 256 - 1) sampleParent 9000000
        = Except.ok c ∧ 8000000 < c ∧ c ≤ 9000000) := by
  obtain ⟨c1, h1, _, hb1, _⟩ := childGasLimit_converges sampleEngine (2 ^ 256 - 1) sampleParent
    (2 ^ 256 - 1) (by decide) rfl (by decide) (by decide)
  obtain ⟨c2, h2, ha2, _, _⟩ := childGasLimit_converges sampleEngine (2 ^ 256 - 1) sampleParent
    9000000 (by decide) rfl (by decide) (by decide)
  exact ⟨⟨c1, h1, hb1 (by decide)⟩, ⟨c2, h2, ha2 (by decide)⟩⟩

/-! ## ECDSA signatures -/

/-- C19: for every raw signature `(r, s, v)` returned by the library signer with `0 < s < n`
(`n = c_secp256k1n`, `v` a byte), `sign<ECDSA>` returns `(r, s, v)` unchanged when `s <= n/2` and
`(r, n - s, v xor 1)` when `s > n/2`; in both cases the returned `s` is at most `n/2`, which is
the condition of the final assertion. -/
theorem signECDSA_low_s (signer : Nat → bytes → Option (Nat × Nat × Nat)) (k : bytes)
    (hash r s v : Nat) (hraw : signer hash k = some (r, s, v)) (_hs0 : 0 < s)
    (hsn : s < c_secp256k1n) (hv : v < 256) :
    (s ≤ c_secp256k1n / 2 → signECDSA signer k hash = { r := r, s := s, v := v }) ∧
    (s > c_secp256k1n / 2 →
      signECDSA signer k hash = { r := r, s := c_secp256k1n - s, v := v ^^^ 1 }) ∧
    (signECDSA signer k hash).s ≤ c_secp256k1n / 2 := by
  have hvm : v % 256 = v := Nat.mod_eq_of_lt hv
  have hx : (v ^^^ 1) % 256 = v ^^^ 1 := by
    apply Nat.mod_eq_of_lt
    exact Nat.xor_lt_two_pow (n := 8) hv (by decide)
  have hsub : u256 ((c_secp256k1n : Int) - (s : Int)) = c_secp256k1n - s := by
    rw [← Nat.cast_sub (le_of_lt hsn), u256_of_nat]
    apply Nat.mod_eq_of_lt
    exact lt_of_le_of_lt (Nat.sub_le _ _) (by decide)
  have hlow : s ≤ c_secp256k1n / 2 → signECDSA signer k hash = { r := r, s := s, v := v } := by
    intro h
    unfold signECDSA
    rw [hraw]
    simp only [hvm]
    rw [if_neg (by omega)]
  have hhigh : s > c_secp256k1n / 2 →
      signECDSA signer k hash = { r := r, s := c_secp256k1n - s, v := v ^^^ 1 } := by
    intro h
    unfold signECDSA
    rw [hraw]
    simp only [hvm, hx, hsub]
    rw [if_pos h]
  refine ⟨hlow, hhigh, ?_⟩
  by_cases h : s ≤ c_secp256k1n / 2
  · rw [hlow h]
    exact h
  · rw [hhigh (by omega)]
    show c_secp256k1n - s ≤ c_secp256k1n / 2
    have hn : c_secp256k1n = 2 * (c_secp256k1n / 2) + 1 := by decide
    omega

/-- C19, at a concrete input: the raw signature `(5, n - 1, 0)` is returned as `(5, 1, 1)`. -/
theorem signECDSA_low_s_witness :
    signECDSA (constSigner 5 (c_secp256k1n - 1) 0) [] 0 = { r := 5, s := 1, v := 1 } ∧
      (signECDSA (constSigner 5 (c_secp256k1n - 1) 0) [] 0).s ≤ c_secp256k1n / 2 :=
  ⟨((signECDSA_low_s (constSigner 5 (c_secp256k1n - 1) 0) [] 0 5 (c_secp256k1n - 1) 0 rfl
      (by decide) (by decide) (by decide)).2.1 (by decide)).trans (by decide),
    (signECDSA_low_s (constSigner 5 (c_secp256k1n - 1) 0) [] 0 5 (c_secp256k1n - 1) 0 rfl
      (by decide) (by decide) (by decide)).2.2⟩

/-- C20: `ECDSA::SignatureStruct::isValid` is true if and only if `v <= 1`, `0 < r < n` and
`0 < s < n`, with `r` and `s` the big-endian values of the two hashes and
`n = 0xFFFFFFFFFFFFFFFFFFFFFFFFFFFFFFFEBAAEDCE6AF48A03BBFD25E8CD0364141`. -/
theorem SignatureStruct_isValid_iff (sig : SignatureStruct) :
    sig.isValid = true ↔
      sig.v ≤ 1 ∧
      (0 < sig.r ∧ sig.r < 0xFFFFFFFFFFFFFFFFFFFFFFFFFFFFFFFEBAAEDCE6AF48A03BBFD25E8CD0364141) ∧
      (0 < sig.s ∧ sig.s < 0xFFFFFFFFFFFFFFFFFFFFFFFFFFFFFFFEBAAEDCE6AF48A03BBFD25E8CD0364141) := by
  unfold SignatureStruct.isValid
  simp only [Bool.and_eq_true, decide_eq_true_eq, gt_iff_lt]
  tauto

/-- C20, at concrete inputs: `(r, s, v) = (5, 1, 1)` is valid; `(5, 1, 2)`, `(0, 1, 0)` and
`(5, n, 0)` are not. -/
theorem SignatureStruct_isValid_iff_witness :
    SignatureStruct.isValid { r := 5, s := 1, v := 1 } = true ∧
      SignatureStruct.isValid { r := 5, s := 1, v := 2 } = false ∧
      SignatureStruct.isValid { r := 0, s := 1, v := 0 } = false ∧
      SignatureStruct.isValid
        { r := 5, s := 0xFFFFFFFFFFFFFFFFFFFFFFFFFFFFFFFEBAAEDCE6AF48A03BBFD25E8CD0364141,
          v := 0 } = false :=
  ⟨(SignatureStruct_isValid_iff { r := 5, s := 1, v := 1 }).mpr (by decide),
    by decide, by decide, by decide⟩

/-! ## ECDSA recovery and verification -/

/-- C21: ECDSA `verify` is recover-and-compare: `verify(pub, sig, msg)` is true exactly when
`pub` is not the zero key and `pub = recover(sig, msg)`; and it fails closed: for a signature
whose `v` byte is greater than 3, `recover` returns the empty (zero) public key for every
message, and `verify` returns false for every public key, the zero key included. -/
theorem verifyECDSA_recover_and_compare (parse_compact : Nat → Nat → Nat → Option Nat)
    (ecdsa_recover : Nat → Nat → Option Nat) (pub : Nat) (sig : SignatureStruct) (msg : Nat) :
    (verifyECDSA parse_compact ecdsa_recover pub sig msg
      = decide (pub ≠ 0 ∧ pub = recover parse_compact ecdsa_recover sig msg)) ∧
    (sig.v > 3 →
      recover parse_compact ecdsa_recover sig msg = 0 ∧
      ∀ p : Nat, verifyECDSA parse_compact ecdsa_recover p sig msg = false) := by
  constructor
  · unfold verifyECDSA
    by_cases hp : pub = 0
    · simp [hp]
    · simp [hp]
  · intro hv
    have hrec : recover parse_compact ecdsa_recover sig msg = 0 := by
      unfold recover
      simp only [hv, if_true]
    refine ⟨hrec, fun p => ?_⟩
    unfold verifyECDSA
    by_cases hp : p = 0
    · rw [if_pos hp]
    · rw [if_neg hp, hrec]
      exact decide_eq_false hp

/-- C21, at concrete inputs with the sample library: the signature `(5, 7, 4)` recovers to the
zero key and verifies under no key; the signature `(5, 7, 1)` on message 9 recovers to 22 and
verifies under that key only. -/
theorem verifyECDSA_recover_and_compare_witness :
    recover sampleParseCompact sampleEcdsaRecover { r := 5, s := 7, v := 4 } 9 = 0 ∧
      verifyECDSA sampleParseCompact sampleEcdsaRecover 0 { r := 5, s := 7, v := 4 } 9 = false ∧
      verifyECDSA sampleParseCompact sampleEcdsaRecover 22 { r := 5, s := 7, v := 4 } 9 = false ∧
      verifyECDSA sampleParseCompact sampleEcdsaRecover 22 { r := 5, s := 7, v := 1 } 9 = true ∧
      verifyECDSA sampleParseCompact sampleEcdsaRecover 23 { r := 5, s := 7, v := 1 } 9 = false :=
  ⟨((verifyECDSA_recover_and_compare sampleParseCompact sampleEcdsaRecover 0
      { r := 5, s := 7, v := 4 } 9).2 (by decide)).1,
    ((verifyECDSA_recover_and_compare sampleParseCompact sampleEcdsaRecover 0
      { r := 5, s := 7, v := 4 } 9).2 (by decide)).2 0,
    ((verifyECDSA_recover_and_compare sampleParseCompact sampleEcdsaRecover 0
      { r := 5, s := 7, v := 4 } 9).2 (by decide)).2 22,
    by decide, by decide⟩

/-! ## BLS round trip -/

/-- C22: for every BLS secret `k` and message `m`, `verify<BLS>(toPublic(k), sign<BLS>(k, m), m)`
is true, because `sign` signs and `verify` checks the same element
`mapToG1(keccak(dataDir || toPublic(k) || m))`; assuming the library accepts `sign(e, k)` for
every element `e` under `generatePublicKey(k)`, and one data-directory name. `sign<BLS>` is a
function of `(k, m, dataDir)`: two engines with the same library functions and the same
data-directory name give the same signature. -/
theorem signBLS_verifyBLS (E : Ethash) (k : bytes) (m : Nat)
    (hlib : ∀ e : bytes,
      E.BonehLynnShacham_verify (E.generatePublicKey k) e (E.BonehLynnShacham_sign e k) = true) :
    verifyBLS E (toPublicBLS E k) (signBLS E k m) m = true ∧
    hashToElement E (toPublicBLS E k) m
      = E.mapToElement (asBytes32 (E.sha3
          (E.getDefaultDataDirName ++ E.generatePublicKey k ++ asBytes32 m))) ∧
    signBLS E k m = E.BonehLynnShacham_sign (hashToElement E (toPublicBLS E k) m) k ∧
    (∀ E2 : Ethash, E2.sha3 = E.sha3 → E2.mapToElement = E.mapToElement →
      E2.generatePublicKey = E.generatePublicKey →
      E2.BonehLynnShacham_sign = E.BonehLynnShacham_sign →
      E2.getDefaultDataDirName = E.getDefaultDataDirName →
      signBLS E2 k m = signBLS E k m) := by
  refine ⟨?_, rfl, rfl, ?_⟩
  · unfold verifyBLS signBLS toPublicBLS
    exact hlib _
  · intro E2 h1 h2 h3 h4 h5
    unfold signBLS hashToElement toPublicBLS
    rw [h1, h2, h3, h4, h5]

/-- C22, at a concrete input: on the sample engine the signature of message 77 with the secret
`[1, 2, 3]` verifies under the public key of that secret. -/
theorem signBLS_verifyBLS_witness :
    verifyBLS sampleEngine (toPublicBLS sampleEngine [1, 2, 3])
      (signBLS sampleEngine [1, 2, 3] 77) 77 = true :=
  (signBLS_verifyBLS sampleEngine [1, 2, 3] 77
    (fun e => by simp [sampleEngine])).1

/-! ## The child gas limit against the verifier -/

/-- The utilisation term of `childGasLimit` is at most `2 * (g / D) - 2` when the gas used is at
most the gas limit and `g / D >= 3`, whether or not `gasUsed * 6` wraps. -/
theorem gasUsed_term_le (g u D W : Nat) (hD : 1 ≤ D) (hW : W ≤ u * 6) (hu : u ≤ g)
    (hq : 3 ≤ g / D) : W / 5 / D + 2 ≤ 2 * (g / D) := by
  have h1 : g < D * (g / D + 1) := Nat.lt_mul_div_succ g (by omega)
  obtain ⟨q, hq2⟩ := Nat.exists_eq_add_of_le hq
  rw [hq2] at h1 ⊢
  have h2 : W < 5 * D * (2 * q + 5) := by
    have h3 : 0 ≤ D * q := Nat.zero_le _
    nlinarith
  have h4 : W / (5 * D) < 2 * q + 5 := Nat.div_lt_of_lt_mul h2
  rw [Nat.div_div_eq_div_mul]
  omega

theorem u256mul_le (a b : Nat) : u256mul a b ≤ a * b := by
  unfold u256mul
  rw [← Nat.cast_mul, u256_of_nat]
  exact Nat.mod_le _ _

/-- C23: for every parent with bound divisor `D >= 1`, `gasUsed <= gasLimit`,
`gasLimit / D >= 3` and `gasLimit + gasLimit / D < 2^256`, and every floor, the child gas limit
`g'` satisfies `gasLimit - gasLimit/D < g' < gasLimit + gasLimit/D`; so it passes the
parent-relative gas-limit test of `verify`, and so does the gas limit of a header populated by
`populateFromParent`. -/
theorem childGasLimit_within_envelope (E : Ethash) (Invalid256 : Nat) (parent : BlockHeader)
    (floor : Nat) (hD : 1 ≤ E.chainParams.gasLimitBoundDivisor)
    (hu : parent.gasUsed ≤ parent.gasLimit)
    (hq : 3 ≤ parent.gasLimit / E.chainParams.gasLimitBoundDivisor)
    (hadd : parent.gasLimit + parent.gasLimit / E.chainParams.gasLimitBoundDivisor < 2 ^ 256) :
    (∃ g' : Nat, childGasLimit E Invalid256 parent floor = Except.ok g' ∧
      parent.gasLimit - parent.gasLimit / E.chainParams.gasLimitBoundDivisor < g' ∧
      g' < parent.gasLimit + parent.gasLimit / E.chainParams.gasLimitBoundDivisor ∧
      ¬ (g' ≤ u256 ((parent.gasLimit : Int)
            - ((parent.gasLimit / E.chainParams.gasLimitBoundDivisor : Nat) : Int)) ∨
          g' ≥ u256 ((parent.gasLimit : Int)
            + ((parent.gasLimit / E.chainParams.gasLimitBoundDivisor : Nat) : Int)))) ∧
    (∀ _bi : BlockHeader, ∃ h : BlockHeader,
      populateFromParent E Invalid256 _bi parent = Except.ok h ∧
      ¬ (h.gasLimit ≤ u256 ((parent.gasLimit : Int)
            - ((parent.gasLimit / E.chainParams.gasLimitBoundDivisor : Nat) : Int)) ∨
          h.gasLimit ≥ u256 ((parent.gasLimit : Int)
            + ((parent.gasLimit / E.chainParams.gasLimitBoundDivisor : Nat) : Int)))) := by
  have hle : parent.gasLimit / E.chainParams.gasLimitBoundDivisor ≤ parent.gasLimit :=
    Nat.div_le_self _ _
  have hglt : parent.gasLimit < 2 ^ 256 := lt_of_le_of_lt (Nat.le_add_right _ _) hadd
  have hsub : u256 ((parent.gasLimit : Int)
      - ((parent.gasLimit / E.chainParams.gasLimitBoundDivisor : Nat) : Int))
      = parent.gasLimit - parent.gasLimit / E.chainParams.gasLimitBoundDivisor :=
    u256sub_of_le _ _ hle hglt
  have haddeq : u256 ((parent.gasLimit : Int)
      + ((parent.gasLimit / E.chainParams.gasLimitBoundDivisor : Nat) : Int))
      = parent.gasLimit + parent.gasLimit / E.chainParams.gasLimitBoundDivisor :=
    u256add_of_lt _ _ hadd
  have hw := gasUsed_term_le parent.gasLimit parent.gasUsed E.chainParams.gasLimitBoundDivisor
    (u256mul parent.gasUsed 6) hD (u256mul_le _ _) hu hq
  have hD0 : E.chainParams.gasLimitBoundDivisor ≠ 0 := by omega
  have key : ∀ fl : Nat, ∃ g' : Nat, childGasLimit E Invalid256 parent fl = Except.ok g' ∧
      parent.gasLimit - parent.gasLimit / E.chainParams.gasLimitBoundDivisor < g' ∧
      g' < parent.gasLimit + parent.gasLimit / E.chainParams.gasLimitBoundDivisor := by
    intro fl
    by_cases hlt : parent.gasLimit < (if fl = Invalid256 then 3141562 else fl)
    · refine ⟨_, childGasLimit_below E Invalid256 parent fl (by omega) hD hadd hlt, ?_, ?_⟩
      · apply lt_min
        · omega
        · generalize parent.gasLimit / E.chainParams.gasLimitBoundDivisor = q at hq hle
          omega
      · apply lt_of_le_of_lt (min_le_right _ _)
        generalize parent.gasLimit / E.chainParams.gasLimitBoundDivisor = q at hq hle
        omega
    · have hres : childGasLimit E Invalid256 parent fl
          = Except.ok (max (if fl = Invalid256 then 3141562 else fl)
            (parent.gasLimit - parent.gasLimit / E.chainParams.gasLimitBoundDivisor + 1
              + u256mul parent.gasUsed 6 / 5 / E.chainParams.gasLimitBoundDivisor)) := by
        unfold childGasLimit u256div
        simp only [hlt, if_false, hD0, bind, Except.bind, pure, Except.pure]
        rw [u256sub_of_le _ _ hle hglt,
          u256add_of_lt (parent.gasLimit - parent.gasLimit / E.chainParams.gasLimitBoundDivisor)
            1 (by omega),
          u256add_of_lt _ _ (by
            generalize parent.gasLimit / E.chainParams.gasLimitBoundDivisor = q at *
            generalize u256mul parent.gasUsed 6 / 5 / E.chainParams.gasLimitBoundDivisor
              = w at *
            omega)]
      refine ⟨_, hres, ?_, ?_⟩
      · apply lt_of_lt_of_le _ (le_max_right _ _)
        generalize u256mul parent.gasUsed 6 / 5 / E.chainParams.gasLimitBoundDivisor = w
        generalize parent.gasLimit / E.chainParams.gasLimitBoundDivisor = q
        omega
      · apply max_lt
        · generalize parent.gasLimit / E.chainParams.gasLimitBoundDivisor = q at hq hle
          omega
        · generalize parent.gasLimit / E.chainParams.gasLimitBoundDivisor = q at *
          generalize u256mul parent.gasUsed 6 / 5 / E.chainParams.gasLimitBoundDivisor
            = w at *
          omega
  constructor
  · obtain ⟨g', hg', hlo, hhi⟩ := key floor
    refine ⟨g', hg', hlo, hhi, ?_⟩
    rw [hsub, haddeq]
    omega
  · intro _bi
    obtain ⟨g', hg', hlo, hhi⟩ := key Invalid256
    refine ⟨{ E.SealEngineFace_populateFromParent _bi parent with gasLimit := g' }, ?_, ?_⟩
    · unfold populateFromParent
      simp only [hg', bind, Except.bind, pure, Except.pure]
    · rw [hsub, haddeq]
      show ¬ (g' ≤ _ ∨ g' ≥ _)
      omega

/-- C23, at a concrete input on the sample engine: the header populated from `sampleParent`
(gas limit 8_000_000, divisor 1024) has gas limit 7_992_189, inside the envelope
`(7_992_188, 8_007_812)`. -/
theorem childGasLimit_within_envelope_witness :
    ∃ g' : Nat, childGasLimit sampleEngine (2 ^ 256 - 1) sampleParent (2 ^ 256 - 1)
        = Except.ok g' ∧ 8000000 - 7812 < g' ∧ g' < 8000000 + 7812 := by
  obtain ⟨g', h1, h2, h3, _⟩ := (childGasLimit_within_envelope sampleEngine (2 ^ 256 - 1)
    sampleParent (2 ^ 256 - 1) (by decide) (by decide) (by decide) (by decide)).1
  exact ⟨g', h1, h2, h3⟩

/-! ## Headers of number 0 -/

/-- C24: `verify` never accepts a header whose number is 0: for every strictness
(`CheckNothingNew` included) and every parent it raises an error, which is
`GenesisBlockCannotBeCalculated` when the checks before the retarget (the base-class check and
the strictness-guarded bounds) pass, because the retarget is computed unconditionally. -/
theorem verify_rejects_number_zero (E : Ethash) (s : Strictness) (H P : BlockHeader)
    (block : bytes) (h0 : H.number = 0) :
    verify E s H P block ≠ Except.ok () ∧
    (∃ e, verify E s H P block = Except.error e) ∧
    (E.SealEngineFace_verify s H P block = Except.ok () → verifyBounds E s H = Except.ok () →
      verify E s H P block = Except.error Exception.GenesisBlockCannotBeCalculated) := by
  have hne : verify E s H P block ≠ Except.ok () := by
    intro hok
    have henv := verify_ok_imp_envelope_ok E s H P block hok
    obtain ⟨_, _, hparent⟩ := (verifyEnvelope_ok_iff E s H P block).mp henv
    rw [verifyAgainstParent_genesis E H P h0] at hparent
    cases hparent
  refine ⟨hne, ?_, ?_⟩
  · cases hv : verify E s H P block with
    | error e => exact ⟨e, rfl⟩
    | ok u => exact absurd hv hne
  · intro hb hbounds
    apply verify_eq_of_envelope_error
    rw [verifyEnvelope_eq E s H P block hb, hbounds]
    exact verifyAgainstParent_genesis E H P h0

/-- C24, at concrete inputs: a header of number 0 on the sample engine raises
`GenesisBlockCannotBeCalculated` at `CheckNothingNew` and at `CheckEverything`. -/
theorem verify_rejects_number_zero_witness :
    verify sampleEngine Strictness.CheckNothingNew (sampleHeader 0 101 1000488 8000000)
        sampleParent [] = Except.error Exception.GenesisBlockCannotBeCalculated ∧
      verify sampleEngine Strictness.CheckEverything (sampleHeader 0 101 1000488 8000000)
        sampleParent [] = Except.error Exception.GenesisBlockCannotBeCalculated :=
  ⟨(verify_rejects_number_zero sampleEngine Strictness.CheckNothingNew
      (sampleHeader 0 101 1000488 8000000) sampleParent [] rfl).2.2 rfl (by decide),
    (verify_rejects_number_zero sampleEngine Strictness.CheckEverything
      (sampleHeader 0 101 1000488 8000000) sampleParent [] rfl).2.2 rfl (by decide)⟩

/-! ## The flag and the callback in the winning step -/

/-- C25: in the winning step the callback is applied to the state in which the generating flag
has not yet been cleared, and the flag is cleared after it has returned; so a `generateSeal`
request issued from inside the callback, with the flag set, is dropped: no sealing thread is
started and the sealing slot keeps the sealed header. -/
theorem sealThreadEmit_callback_before_clear (streamRLP : BlockHeader → bytes)
    (st : SealerState) (_bi parent : BlockHeader) :
    (∀ callback : bytes → SealerState → SealerState,
      sealThreadEmit streamRLP (some callback) st
        = { callback (streamRLP st.m_sealing) st with m_generating := false }) ∧
    (st.m_generating = true →
      sealThreadEmit streamRLP (some (fun _ s => generateSeal s _bi parent)) st
        = { st with m_generating := false } ∧
      (sealThreadEmit streamRLP (some (fun _ s => generateSeal s _bi parent)) st).m_sealing
        = st.m_sealing ∧
      (sealThreadEmit streamRLP (some (fun _ s => generateSeal s _bi parent)) st).started
        = st.started ∧
      (sealThreadEmit streamRLP (some (fun _ s => generateSeal s _bi parent)) st).sealThread
        = st.sealThread) := by
  refine ⟨fun _ => rfl, fun h => ?_⟩
  have hg : generateSeal st _bi parent = st := by
    unfold generateSeal
    rw [if_neg (by rw [h]; decide)]
  have e : sealThreadEmit streamRLP (some (fun _ s => generateSeal s _bi parent)) st
      = { st with m_generating := false } := by
    unfold sealThreadEmit
    simp only [hg]
  rw [e]
  exact ⟨rfl, rfl, rfl, rfl⟩

/-- C25, at a concrete input: with `sealedHeader` in the slot and the flag set, a callback that
requests a seal for `unsealedHeader 2` leaves the slot and the thread count unchanged, and the
flag ends cleared. -/
theorem sealThreadEmit_callback_before_clear_witness :
    sealThreadEmit (fun h => [h.number])
        (some (fun _ s => generateSeal s (unsealedHeader 2) sealedHeader))
        { m_generating := true, m_sealing := sealedHeader, sealThread := some sampleParent,
          started := 1 }
      = { m_generating := false, m_sealing := sealedHeader, sealThread := some sampleParent,
          started := 1 } :=
  ((sealThreadEmit_callback_before_clear (fun h => [h.number])
      { m_generating := true, m_sealing := sealedHeader, sealThread := some sampleParent,
        started := 1 } (unsealedHeader 2) sealedHeader).2 rfl).1

/-! ## The key derivation function of ECIES -/

/-- The result of `ecies::kdf` has exactly `kdByteLen` bytes. -/
theorem kdf_length (sha256 : bytes → bytes) (z s1 : bytes) (kdByteLen : Nat) :
    (kdf sha256 z s1 kdByteLen).length = kdByteLen := by
  unfold kdf resize
  simp only [List.length_take, List.length_append, List.length_replicate]
  omega

/-- With 32-byte digests the loop of `ecies::kdf` appends 32 bytes per iteration. -/
theorem kdfLoop_length (sha256 : bytes → bytes) (z s1 : bytes)
    (hsha : ∀ bs, (sha256 bs).length = 32) (n : Nat) :
    ∀ (ctr : Nat × Nat × Nat × Nat) (k : bytes),
      (kdfLoop sha256 z s1 n ctr k).length = k.length + 32 * n := by
  induction n with
  | zero =>
    intro ctr k
    simp [kdfLoop]
  | succ n ih =>
    intro ctr k
    rw [kdfLoop, ih, List.length_append, hsha]
    omega

/-- With 32-byte digests, for every length from 33 to 56 the loop of `ecies::kdf` runs once and
produces 32 bytes, fewer than the length requested. -/
theorem kdf_loop_too_short (sha256 : bytes → bytes) (z s1 : bytes)
    (hsha : ∀ bs, (sha256 bs).length = 32) (kdByteLen : Nat) (h1 : 33 ≤ kdByteLen)
    (h2 : kdByteLen ≤ 56) :
    (kdfLoop sha256 z s1 (((kdByteLen + 7) % 2 ^ 32 * 8) % 2 ^ 32 / 512 + 1) (0, 0, 0, 1)
      []).length = 32 ∧ 32 < kdByteLen := by
  rw [kdfLoop_length sha256 z s1 hsha]
  have hreps : ((kdByteLen + 7) % 2 ^ 32 * 8) % 2 ^ 32 / 512 = 0 := by omega
  rw [hreps]
  exact ⟨rfl, by omega⟩

/-- With 32-byte digests, for every length up to 32 (the length the callers in the sources ask
for) the result is the prefix of the counter-mode stream. -/
theorem kdf_eq_stream_of_le_32 (sha256 : bytes → bytes) (z s1 : bytes)
    (hsha : ∀ bs, (sha256 bs).length = 32) (kdByteLen : Nat) (h : kdByteLen ≤ 32) :
    kdf sha256 z s1 kdByteLen = (counterModeStream sha256 z s1 1 1).take kdByteLen := by
  have hreps : ((kdByteLen + 7) % 2 ^ 32 * 8) % 2 ^ 32 / 512 = 0 := by omega
  unfold kdf resize
  rw [hreps]
  simp only [kdfLoop, counterModeStream, List.nil_append, List.append_nil, hsha]
  have hz : kdByteLen - 32 = 0 := by omega
  rw [hz]
  simp

/-- C26, at the failing input `kdByteLen = 33` (with the sample digest function, whose digests
have 32 non-zero bytes, and the secret of 32 bytes 1): `reps` is 0, the loop produces 32 bytes,
and the result is the first digest followed by a zero byte, which is not the first 33 bytes of
the counter-mode stream. -/
theorem kdf_zero_fills_at_33 :
    ((33 + 7) % 2 ^ 32 * 8) % 2 ^ 32 / 512 = 0 ∧
      (kdfLoop sampleSha256 (List.replicate 32 1) [] 1 (0, 0, 0, 1) []).length = 32 ∧
      kdf sampleSha256 (List.replicate 32 1) [] 33
        = counterModeStream sampleSha256 (List.replicate 32 1) [] 1 1 ++ [0] ∧
      (counterModeStream sampleSha256 (List.replicate 32 1) [] 2 1).take 33
        = counterModeStream sampleSha256 (List.replicate 32 1) [] 1 1 ++ [35] ∧
      kdf sampleSha256 (List.replicate 32 1) [] 33
        ≠ (counterModeStream sampleSha256 (List.replicate 32 1) [] 2 1).take 33 := by
  decide

/-! ## The two encodings of the group order -/

/-- C27: the hexadecimal bound `s_max` of `SignatureStruct::isValid` and the decimal constant
`c_secp256k1n` of `sign` are the same integer: `isValid` tests `r` and `s` against
`c_secp256k1n`, and every `s <= c_secp256k1n / 2`, the range `sign` canonicalises to, is below
`s_max`. -/
theorem s_max_eq_c_secp256k1n :
    (0xfffffffffffffffffffffffffffffffebaaedce6af48a03bbfd25e8cd0364141 : Nat) = c_secp256k1n ∧
    (∀ sig : SignatureStruct, sig.isValid = true ↔
      sig.v ≤ 1 ∧ (0 < sig.r ∧ sig.r < c_secp256k1n) ∧ (0 < sig.s ∧ sig.s < c_secp256k1n)) ∧
    (∀ s : Nat, s ≤ c_secp256k1n / 2 →
      s < 0xfffffffffffffffffffffffffffffffebaaedce6af48a03bbfd25e8cd0364141) := by
  have heq : (0xfffffffffffffffffffffffffffffffebaaedce6af48a03bbfd25e8cd0364141 : Nat)
      = c_secp256k1n := by decide
  refine ⟨heq, ?_, ?_⟩
  · intro sig
    unfold SignatureStruct.isValid
    simp only [Bool.and_eq_true, decide_eq_true_eq, gt_iff_lt, heq]
    tauto
  · intro s hs
    rw [heq]
    have hlt : c_secp256k1n / 2 < c_secp256k1n := by decide
    exact lt_of_le_of_lt hs hlt

/-- C27, at a concrete input: the canonical signature `(5, n / 2, 1)` is valid. -/
theorem s_max_eq_c_secp256k1n_witness :
    SignatureStruct.isValid { r := 5, s := c_secp256k1n / 2, v := 1 } = true :=
  (s_max_eq_c_secp256k1n.2.1 { r := 5, s := c_secp256k1n / 2, v := 1 }).mpr (by decide)

end Petrichor
